import Mathlib

/-!
Shallow embedding of `src/devices/devicemanager.cpp` (Clementine's
`DeviceManager`): the device registry, its identity-merge logic, the
connection lifecycle, the persistent-index renumbering of the ordered
view, and the task-progress overlay.

Modelling conventions:
* Qt pointers (`DeviceLister*`) become `Option Nat`: a lister is
  identified by a numeric id resolved through an environment `Env`
  (the lister's behaviour — priority, device URLs, names — is outside
  the registry and read-only from its point of view).
* `boost::shared_ptr<ConnectedDevice>` becomes `Option ConnectedDevice`
  where `ConnectedDevice` records the constructor arguments the factory
  received (pointer identity is modelled as value equality; each
  `Connect` builds the value from the current row so this is faithful
  for the scenarios treated here).
* `QMap<int, QPersistentModelIndex> active_tasks_` becomes a key-sorted
  association list from task id to a handle into a table `pindexes` of
  persistent model indexes; a persistent index is `Option Nat` (current
  row, or `none` once invalidated).  Row removal renumbers the table
  exactly as the explicit `changePersistentIndex` loop in the source
  does: handles at the removed row become invalid, handles above shift
  down by one, handles below are untouched.
* Emitted Qt signals (`dataChanged`, `DeviceConnected`,
  `DeviceDisconnected`, `Error`, row insertion/removal) are logged in
  order in an `events` field.
* `backend_->AddDevice` returns a fresh database id from a counter
  `next_id_ : Nat` (real ids are non-negative, hence never the `-1`
  "unsaved" sentinel); the number of `AddDevice` invocations is logged
  in `add_device_calls`.
* `float(progress) / progress_max * 100` truncated into the `int`
  member `task_percentage_` is modelled as Nat division
  `progress * 100 / progress_max`; the two agree on the magnitudes a
  task manager produces (and exactly on every input used below).
* C++ indexing `devices_[row]` on an out-of-range row is undefined
  behaviour; the embedding makes such calls no-ops and every theorem
  only ever uses in-range rows.
-/

/-- A URL, reduced to the parts the registry inspects: the scheme and the rest.
`Url.empty` plays the role of a default-constructed `QUrl`. -/
structure Url where
  scheme : String
  body : String
deriving DecidableEq, Repr

def Url.empty : Url := ⟨"", ""⟩

def Url.toString (u : Url) : String := u.scheme ++ "://" ++ u.body

/-- Behaviour of one `DeviceLister` (discovery backend), as consumed by the
registry: `priority()`, `MakeDeviceUrls`, `MakeFriendlyName`,
`DeviceCapacity`, `DeviceIcons`. -/
structure Lister where
  priority : Int
  deviceUrls : String → List Url
  friendlyName : String → String
  capacity : String → Nat
  deviceIcons : String → List String

/-- The registry's read-only environment: resolution of lister ids to lister
behaviour, the registered URL schemes (`device_classes_` keys), whether the
factory (`QMetaObject::newInstance`) succeeds for a URL, and which icon names
`IconLoader::Load` can resolve. -/
structure Env where
  listers : Nat → Lister
  schemes : List String
  factoryOk : Url → Bool
  iconAvailable : String → Bool

/-- `DeviceManager::DeviceInfo::Backend`: one binding between a discovery
backend (`lister_`, `none` = null pointer) and its native id for the device. -/
structure Backend where
  lister_ : Option Nat
  unique_id_ : String
deriving DecidableEq, Repr

/-- The arguments `Connect` hands to the device-class constructor; stands in
for the constructed `ConnectedDevice`. -/
structure ConnectedDevice where
  url : Url
  lister : Option Nat
  unique_id : String
  database_id : Int
  first_time : Bool
deriving DecidableEq, Repr

/-- `DeviceManager::DeviceInfo`: one row of the registry. -/
structure DeviceInfo where
  database_id_ : Int
  friendly_name_ : String
  size_ : Nat
  icon_name_ : String
  backends_ : List Backend
  device_ : Option ConnectedDevice
  task_percentage_ : Int
deriving DecidableEq, Repr

/-- Signals emitted by the registry, in emission order. -/
inductive Event where
  | dataChanged (row : Nat)
  | deviceConnected (row : Nat)
  | deviceDisconnected (row : Nat)
  | error (msg : String)
  | rowsInserted (row : Nat)
  | rowsRemoved (row : Nat)
deriving DecidableEq, Repr

/-- A task snapshot entry (`TaskManager::Task`); named `TmTask` since `Task` is taken by the Lean core. -/
structure TmTask where
  id : Nat
  progress : Nat
  progress_max : Nat
deriving DecidableEq, Repr

/-- The mutable state of `DeviceManager`. -/
structure DeviceManager where
  devices_ : List DeviceInfo
  pindexes : List (Option Nat)
  active_tasks_ : List (Nat × Nat)
  next_id_ : Nat
  add_device_calls : Nat
  events : List Event
deriving DecidableEq, Repr

def emitEvent (e : Event) (s : DeviceManager) : DeviceManager :=
  { s with events := s.events ++ [e] }

def setDevice (s : DeviceManager) (row : Nat) (info : DeviceInfo) : DeviceManager :=
  { s with devices_ := s.devices_.set row info }

/-- The scanning loop of `DeviceInfo::BestBackend`: walk the bindings keeping
the live one with the strictly highest priority seen so far. -/
def bestBackendAux (env : Env) : List Backend → Int → Option Backend → Option Backend
  | [], _, ret => ret
  | b :: rest, best, ret =>
    match b.lister_ with
    | some l =>
      if (env.listers l).priority > best then
        bestBackendAux env rest (env.listers l).priority (some b)
      else
        bestBackendAux env rest best ret
    | none => bestBackendAux env rest best ret

/-- `DeviceInfo::BestBackend`: highest-priority live binding, falling back to
the first binding when no binding is live; `none` only when `backends_` is
empty (where the C++ returns null). -/
def BestBackend (env : Env) (info : DeviceInfo) : Option Backend :=
  match bestBackendAux env info.backends_ (-1) none with
  | some b => some b
  | none => info.backends_.head?

/-- The lister of the primary binding (`BestBackend()->lister_`), `none` when
there is no live backend. -/
def bestLister (env : Env) (info : DeviceInfo) : Option Nat :=
  match BestBackend env info with
  | some b => b.lister_
  | none => none

/-- `LoadIcon`'s effect on `icon_name_` (the pixmap itself is presentation).
Try each candidate icon name; on failure guess from the first hint plus the
friendly name; fall back to a USB-stick icon. -/
def LoadIconName (env : Env) (icons : List String) (name_hint : String) : String :=
  match icons with
  | [] => "drive-removable-media-usb-pendrive"
  | first :: _ =>
    match icons.find? (fun n => env.iconAvailable n) with
    | some n => n
    | none =>
      let hint := (first ++ name_hint).toLower
      if ("phone".toList).IsInfix hint.toList then "phone"
      else if ("ipod".toList).IsInfix hint.toList || ("apple".toList).IsInfix hint.toList then
        "multimedia-player-ipod-standard-monochrome"
      else "drive-removable-media-usb-pendrive"

/-- `DeviceDatabaseBackend::Device`: a persisted record snapshot. -/
structure DbDevice where
  id_ : Int
  friendly_name_ : String
  size_ : Nat
  icon_name_ : String
  unique_id_ : String
deriving DecidableEq, Repr

/-- `DeviceInfo::InitFromDb`: re-expand a persisted snapshot; the
comma-joined id list becomes one binding per id, none with a live backend
(`QString::split` on an empty string yields one empty part, so the binding
list is never empty). -/
def InitFromDb (env : Env) (dev : DbDevice) : DeviceInfo :=
  { database_id_ := dev.id_
    friendly_name_ := dev.friendly_name_
    size_ := dev.size_
    icon_name_ := LoadIconName env (dev.icon_name_.splitOn ",") dev.friendly_name_
    backends_ := (dev.unique_id_.splitOn ",").map (fun id => ⟨none, id⟩)
    device_ := none
    task_percentage_ := -1 }

/-- The registry state right after the constructor loaded all persisted
devices; `next_id_` is the next id the database will hand out. -/
def initManager (env : Env) (dbDevices : List DbDevice) (nextId : Nat) : DeviceManager :=
  { devices_ := dbDevices.map (InitFromDb env)
    pindexes := []
    active_tasks_ := []
    next_id_ := nextId
    add_device_calls := 0
    events := [] }

/-- Whether a record owns a binding with the given native id (the inner loop
of `FindDeviceById`). -/
def hasBackendId (d : DeviceInfo) (id : String) : Prop :=
  ∃ b ∈ d.backends_, b.unique_id_ = id

instance (d : DeviceInfo) (id : String) : Decidable (hasBackendId d id) :=
  inferInstanceAs (Decidable (∃ b ∈ d.backends_, b.unique_id_ = id))

/-- Index of the first record owning a binding with native id `id`
(`FindDeviceById`, with `none` in place of the `-1` sentinel). -/
def findDeviceByIdAux (id : String) : List DeviceInfo → Option Nat
  | [] => none
  | d :: rest =>
    if hasBackendId d id then some 0
    else (findDeviceByIdAux id rest).map (· + 1)

def FindDeviceById (s : DeviceManager) (id : String) : Int :=
  match findDeviceByIdAux id s.devices_ with
  | some i => (i : Int)
  | none => -1

/-- Whether one binding resolves (through its live lister) to a URL in
`urls`. -/
def backendMatchesUrl (env : Env) (urls : List Url) (b : Backend) : Prop :=
  ∃ l, b.lister_ = some l ∧ ∃ u ∈ (env.listers l).deviceUrls b.unique_id_, u ∈ urls

instance (env : Env) (urls : List Url) (b : Backend) :
    Decidable (backendMatchesUrl env urls b) := by
  unfold backendMatchesUrl
  cases b.lister_ with
  | none => exact isFalse (by simp)
  | some l => exact decidable_of_iff (∃ u ∈ (env.listers l).deviceUrls b.unique_id_, u ∈ urls) (by simp)

def deviceMatchesUrl (env : Env) (urls : List Url) (d : DeviceInfo) : Prop :=
  ∃ b ∈ d.backends_, backendMatchesUrl env urls b

instance (env : Env) (urls : List Url) (d : DeviceInfo) :
    Decidable (deviceMatchesUrl env urls d) :=
  inferInstanceAs (Decidable (∃ b ∈ d.backends_, backendMatchesUrl env urls b))

/-- Index of the first record one of whose live bindings resolves to a URL in
`urls` (`FindDeviceByUrl`); an empty query matches nothing. -/
def findDeviceByUrlAux (env : Env) (urls : List Url) : List DeviceInfo → Option Nat
  | [] => none
  | d :: rest =>
    if deviceMatchesUrl env urls d then some 0
    else (findDeviceByUrlAux env urls rest).map (· + 1)

def FindDeviceByUrl (env : Env) (s : DeviceManager) (urls : List Url) : Int :=
  if urls = [] then -1
  else
    match findDeviceByUrlAux env urls s.devices_ with
    | some i => (i : Int)
    | none => -1

/-- Clear/overwrite the lister of the first binding with the given native id
(the `break`-ing update loops in `PhysicalDeviceAdded`/`Removed`). -/
def updateBackendLister (id : String) (v : Option Nat) : List Backend → List Backend
  | [] => []
  | b :: rest =>
    if b.unique_id_ = id then { b with lister_ := v } :: rest
    else b :: updateBackendLister id v rest

/-- Remove the first binding with the given native id (the removal loop in
the unpersisted branch of `PhysicalDeviceRemoved`). -/
def removeFirstBackend (id : String) : List Backend → List Backend
  | [] => []
  | b :: rest =>
    if b.unique_id_ = id then rest
    else b :: removeFirstBackend id rest

/-- The renumbering of outstanding persistent indexes performed by the
`changePersistentIndex` loop when row `i` is removed: indexes at `i` become
invalid, indexes above `i` shift down by one, the rest are untouched. -/
def renumberPindexes (i : Nat) (ps : List (Option Nat)) : List (Option Nat) :=
  ps.map (fun p =>
    match p with
    | none => none
    | some r => if r = i then none else if r > i then some (r - 1) else some r)

/-- Remove row `i` from the model (`beginRemoveRows` … `endRemoveRows` with
the persistent-index loop in between). -/
def removeRow (i : Nat) (s : DeviceManager) : DeviceManager :=
  { s with devices_ := s.devices_.eraseIdx i
           pindexes := renumberPindexes i s.pindexes
           events := s.events ++ [Event.rowsRemoved i] }

/-- `DeviceManager::Connect`.  Returns the session handle (or `none`) and the
updated registry state.  Faithful to the source: the device-URL scan has no
`break`, so the *last* URL with a registered scheme ends up in `device_url`;
the `DeviceConnected` signal is emitted on both branches of the
construction-result test. -/
def Connect (env : Env) (row : Nat) (s : DeviceManager) :
    Option ConnectedDevice × DeviceManager :=
  match s.devices_[row]? with
  | none => (none, s)
  | some info =>
    match info.device_ with
    | some dev => (some dev, s)
    | none =>
      match BestBackend env info with
      | none => (none, s)
      | some bb =>
        match bb.lister_ with
        | none => (none, s)
        | some l =>
          let first_time : Bool := decide (info.database_id_ = -1)
          let info := if first_time then { info with database_id_ := (s.next_id_ : Int) } else info
          let s := if first_time then
              { s with next_id_ := s.next_id_ + 1,
                       add_device_calls := s.add_device_calls + 1 }
            else s
          let urls := (env.listers l).deviceUrls bb.unique_id_
          if urls = [] then (none, setDevice s row info)
          else
            let device_url := urls.foldl
              (fun acc u => if env.schemes.contains u.scheme then u else acc) Url.empty
            if device_url = Url.empty then
              let url_strings := urls.map Url.toString
              (none,
               emitEvent
                 (Event.error ("This type of device is not supported: " ++
                   String.intercalate ", " url_strings))
                 (setDevice s row info))
            else
              if env.factoryOk device_url then
                let dev : ConnectedDevice :=
                  { url := device_url, lister := some l, unique_id := bb.unique_id_,
                    database_id := info.database_id_, first_time := first_time }
                let info := { info with device_ := some dev }
                (some dev,
                 emitEvent (Event.deviceConnected row)
                   (emitEvent (Event.dataChanged row) (setDevice s row info)))
              else
                (none, emitEvent (Event.deviceConnected row) (setDevice s row info))

/-- `DeviceManager::Disconnect`. -/
def Disconnect (row : Nat) (s : DeviceManager) : DeviceManager :=
  match s.devices_[row]? with
  | none => s
  | some info =>
    match info.device_ with
    | none => s
    | some _ =>
      emitEvent (Event.dataChanged row)
        (emitEvent (Event.deviceDisconnected row)
          (setDevice s row { info with device_ := none }))

/-- The three values of `Role_State`. -/
inductive ConnState where
  | Connected
  | NotConnected
  | Remembered
deriving DecidableEq, Repr

/-- The `Role_State` branch of `DeviceManager::data`: connected if a session
is live, not-connected if the primary binding has a live backend, remembered
otherwise. -/
def dataState (env : Env) (s : DeviceManager) (row : Nat) : Option ConnState :=
  match s.devices_[row]? with
  | none => none
  | some info =>
    match info.device_ with
    | some _ => some ConnState.Connected
    | none =>
      match bestLister env info with
      | some _ => some ConnState.NotConnected
      | none => some ConnState.Remembered

/-- `DeviceManager::PhysicalDeviceAdded`: identity resolution for a backend
"device added" event from lister `l` with native id `id`.  Three branches:
update the existing binding's lister; merge by URL into an existing record;
or append a brand-new record. -/
def PhysicalDeviceAdded (env : Env) (l : Nat) (id : String) (s : DeviceManager) :
    DeviceManager :=
  match findDeviceByIdAux id s.devices_ with
  | some i =>
    match s.devices_[i]? with
    | none => s
    | some info =>
      let info := { info with backends_ := updateBackendLister id (some l) info.backends_ }
      emitEvent (Event.dataChanged i) (setDevice s i info)
  | none =>
    match findDeviceByUrlAux env ((env.listers l).deviceUrls id) s.devices_ with
    | some i =>
      match s.devices_[i]? with
      | none => s
      | some info =>
        let info := { info with backends_ := info.backends_ ++ [⟨some l, id⟩] }
        let info :=
          if info.database_id_ = -1 ∧ bestLister env info = some l then
            { info with
              friendly_name_ := (env.listers l).friendlyName id
              size_ := (env.listers l).capacity id
              icon_name_ := LoadIconName env ((env.listers l).deviceIcons id)
                ((env.listers l).friendlyName id) }
          else info
        emitEvent (Event.dataChanged i) (setDevice s i info)
    | none =>
      let info : DeviceInfo :=
        { database_id_ := -1
          friendly_name_ := (env.listers l).friendlyName id
          size_ := (env.listers l).capacity id
          icon_name_ := LoadIconName env ((env.listers l).deviceIcons id)
            ((env.listers l).friendlyName id)
          backends_ := [⟨some l, id⟩]
          device_ := none
          task_percentage_ := -1 }
      { s with devices_ := s.devices_ ++ [info]
               events := s.events ++ [Event.rowsInserted s.devices_.length] }

/-- `DeviceManager::PhysicalDeviceRemoved`: for a persisted record the
binding is kept with its lister cleared (and a session from that lister is
torn down); for an unpersisted record the binding is removed and, when it was
the last one, the whole row is removed and persistent indexes renumbered. -/
def PhysicalDeviceRemoved (_env : Env) (l : Nat) (id : String) (s : DeviceManager) :
    DeviceManager :=
  match findDeviceByIdAux id s.devices_ with
  | none => s
  | some i =>
    match s.devices_[i]? with
    | none => s
    | some info =>
      if info.database_id_ ≠ -1 then
        let info := { info with backends_ := updateBackendLister id none info.backends_ }
        let info :=
          match info.device_ with
          | some dev => if dev.lister = some l then { info with device_ := none } else info
          | none => info
        let s := emitEvent (Event.dataChanged i) (setDevice s i info)
        if info.device_ = none then emitEvent (Event.deviceDisconnected i) s else s
      else
        let newBackends := removeFirstBackend id info.backends_
        if newBackends = [] then removeRow i s
        else setDevice s i { info with backends_ := newBackends }

/-- `DeviceManager::PhysicalDeviceChanged` is an explicit no-op (marked TODO
in the source). -/
def PhysicalDeviceChanged (_l : Nat) (_id : String) (s : DeviceManager) : DeviceManager :=
  s

/-- `DeviceManager::Forget`: drop the persisted entry and either remove the
row (device physically absent) or restore the backend-supplied name/icon. -/
def Forget (env : Env) (row : Nat) (s : DeviceManager) : DeviceManager :=
  match s.devices_[row]? with
  | none => s
  | some info =>
    if info.database_id_ = -1 then s
    else
      let s := if info.device_.isSome then Disconnect row s else s
      let info := { info with device_ := none, database_id_ := -1 }
      match BestBackend env info with
      | none => removeRow row s
      | some bb =>
        match bb.lister_ with
        | none => removeRow row s
        | some l =>
          let name := (env.listers l).friendlyName bb.unique_id_
          let info := { info with
            friendly_name_ := name
            icon_name_ := LoadIconName env ((env.listers l).deviceIcons bb.unique_id_) name }
          emitEvent (Event.dataChanged row) (setDevice s row info)

/-- `DeviceManager::SetDeviceIdentity` (the push to persistent storage is an
external effect). -/
def SetDeviceIdentity (env : Env) (row : Nat) (name icon : String) (s : DeviceManager) :
    DeviceManager :=
  match s.devices_[row]? with
  | none => s
  | some info =>
    let info := { info with
      friendly_name_ := name
      icon_name_ := LoadIconName env [icon] name }
    emitEvent (Event.dataChanged row) (setDevice s row info)

/-- `DeviceManager::Unmount`: disconnect first; the physical unmount is
delegated to the lister and leaves registry state untouched. -/
def Unmount (row : Nat) (s : DeviceManager) : DeviceManager :=
  match s.devices_[row]? with
  | none => s
  | some info =>
    if info.database_id_ = -1 then s
    else if info.device_.isSome then Disconnect row s
    else s

/-- Key-ordered insertion into `active_tasks_` (`QMap::operator[]` assigns,
replacing an existing key). -/
def mapInsert (k v : Nat) : List (Nat × Nat) → List (Nat × Nat)
  | [] => [(k, v)]
  | (k', v') :: rest =>
    if k < k' then (k, v) :: (k', v') :: rest
    else if k = k' then (k, v) :: rest
    else (k', v') :: mapInsert k v rest

def mapGet (k : Nat) : List (Nat × Nat) → Option Nat
  | [] => none
  | (k', v') :: rest => if k = k' then some v' else mapGet k rest

/-- Current row of a persistent index handle, `none` when the handle is
unknown or the index has been invalidated. -/
def pindexRow (s : DeviceManager) (h : Nat) : Option Nat :=
  match s.pindexes[h]? with
  | some (some r) => some r
  | _ => none

/-- `DeviceManager::DeviceTaskStarted`: find the row owning the sending
device, remember `task id → persistent index of that row`, set its progress
to 0 and emit an update. -/
def DeviceTaskStarted (taskId : Nat) (dev : ConnectedDevice) (s : DeviceManager) :
    DeviceManager :=
  match s.devices_.findIdx? (fun info => info.device_ == some dev) with
  | none => s
  | some i =>
    let h := s.pindexes.length
    let s := { s with pindexes := s.pindexes ++ [some i]
                      active_tasks_ := mapInsert taskId h s.active_tasks_ }
    match s.devices_[i]? with
    | none => s
    | some info =>
      emitEvent (Event.dataChanged i) (setDevice s i { info with task_percentage_ := 0 })

/-- One iteration of the first loop of `TasksChanged`: a snapshot task that
is tracked and whose persistent index is still valid updates that row's
percentage and drops every finished-candidate handle currently pointing at
the same row (`QList::removeAll` compares persistent indexes by the index
they point at). -/
def tasksChangedStep (acc : DeviceManager × List Nat) (task : TmTask) :
    DeviceManager × List Nat :=
  let (s, fin) := acc
  match mapGet task.id s.active_tasks_ with
  | none => (s, fin)
  | some h =>
    match pindexRow s h with
    | none => (s, fin)
    | some r =>
      match s.devices_[r]? with
      | none => (s, fin)
      | some info =>
        let pct : Int :=
          if task.progress_max ≠ 0 then ((task.progress * 100) / task.progress_max : Nat)
          else 0
        let s := emitEvent (Event.dataChanged r)
          (setDevice s r { info with task_percentage_ := pct })
        (s, fin.filter (fun h' => pindexRow s h' ≠ some r))

/-- Second loop of `TasksChanged`: every tracked task that did not appear in
the snapshot clears its row's percentage back to the `-1` "absent"
sentinel. -/
def tasksChangedFinish (s : DeviceManager) : List Nat → DeviceManager
  | [] => s
  | h :: rest =>
    match pindexRow s h with
    | none => tasksChangedFinish s rest
    | some r =>
      match s.devices_[r]? with
      | none => tasksChangedFinish s rest
      | some info =>
        tasksChangedFinish
          (emitEvent (Event.dataChanged r)
            (setDevice s r { info with task_percentage_ := -1 })) rest

/-- `DeviceManager::TasksChanged`, applied to one task-manager snapshot. -/
def TasksChanged (tasks : List TmTask) (s : DeviceManager) : DeviceManager :=
  let finished := s.active_tasks_.map (·.2)
  let (s, finished) := tasks.foldl tasksChangedStep (s, finished)
  tasksChangedFinish s finished

/-- Creation of a persistent model index by an external consumer
(`QPersistentModelIndex(model->index(row, 0))`); invalid when the row is out
of range. -/
def mkPersistentIndex (row : Nat) (s : DeviceManager) : DeviceManager :=
  { s with pindexes :=
      s.pindexes ++ [if row < s.devices_.length then some row else none] }

/-- The operations that can hit a live registry after construction. -/
inductive Op where
  | physicalDeviceAdded (l : Nat) (id : String)
  | physicalDeviceRemoved (l : Nat) (id : String)
  | physicalDeviceChanged (l : Nat) (id : String)
  | connectOp (row : Nat)
  | disconnectOp (row : Nat)
  | forgetOp (row : Nat)
  | setIdentity (row : Nat) (name icon : String)
  | unmountOp (row : Nat)
  | taskStarted (taskId : Nat) (dev : ConnectedDevice)
  | tasksChangedOp (tasks : List TmTask)
  | newPersistentIndex (row : Nat)

def applyOp (env : Env) (op : Op) (s : DeviceManager) : DeviceManager :=
  match op with
  | Op.physicalDeviceAdded l id => PhysicalDeviceAdded env l id s
  | Op.physicalDeviceRemoved l id => PhysicalDeviceRemoved env l id s
  | Op.physicalDeviceChanged l id => PhysicalDeviceChanged l id s
  | Op.connectOp row => (Connect env row s).2
  | Op.disconnectOp row => Disconnect row s
  | Op.forgetOp row => Forget env row s
  | Op.setIdentity row name icon => SetDeviceIdentity env row name icon s
  | Op.unmountOp row => Unmount row s
  | Op.taskStarted taskId dev => DeviceTaskStarted taskId dev s
  | Op.tasksChangedOp tasks => TasksChanged tasks s
  | Op.newPersistentIndex row => mkPersistentIndex row s

/-- States reachable from a constructor-initialized registry by any sequence
of operations. -/
inductive Reachable (env : Env) : DeviceManager → Prop
  | init (dbDevices : List DbDevice) (nextId : Nat) :
      Reachable env (initManager env dbDevices nextId)
  | step (s : DeviceManager) (op : Op) :
      Reachable env s → Reachable env (applyOp env op s)

/-- A consumer-driven sequence element: connect or disconnect on a fixed row. -/
inductive ConnOp where
  | conn
  | disc

def applyConnOp (env : Env) (row : Nat) (s : DeviceManager) : ConnOp → DeviceManager
  | ConnOp.conn => (Connect env row s).2
  | ConnOp.disc => Disconnect row s

/-- Apply a whole connect/disconnect cycle to one row. -/
def applyConnOps (env : Env) (row : Nat) (ops : List ConnOp) (s : DeviceManager) :
    DeviceManager :=
  ops.foldl (applyConnOp env row) s

/-- Total number of bindings carrying a given native id, across all rows. -/
def countBindings (id : String) (s : DeviceManager) : Nat :=
  (s.devices_.map (fun d => d.backends_.countP (fun b => b.unique_id_ == id))).sum

/-!
Concrete fixtures for the scenario theorems: one discovery backend
(priority 1) reporting device "x" at URLs `a://1` and `b://2`.
-/

def lister0 : Lister :=
  { priority := 1
    deviceUrls := fun id => if id = "x" then [⟨"a", "1"⟩, ⟨"b", "2"⟩] else []
    friendlyName := fun id => String.append "dev-" id
    capacity := fun _ => 100
    deviceIcons := fun _ => [] }

/-- Environment with both schemes `a` and `b` registered and a factory that
always succeeds. -/
def envAB : Env :=
  { listers := fun _ => lister0
    schemes := ["a", "b"]
    factoryOk := fun _ => true
    iconAvailable := fun _ => false }

/-- Same environment, but the factory (`newInstance`) returns null. -/
def envNoFactory : Env := { envAB with factoryOk := fun _ => false }

/-- Same environment with no registered device class at all. -/
def envNoSchemes : Env := { envAB with schemes := [] }

/-- A persisted record for "x" whose single binding is live via lister 0. -/
def infoX : DeviceInfo :=
  { database_id_ := 5, friendly_name_ := "n", size_ := 0, icon_name_ := ""
    backends_ := [⟨some 0, "x"⟩], device_ := none, task_percentage_ := -1 }

def sX : DeviceManager :=
  { devices_ := [infoX], pindexes := [], active_tasks_ := [], next_id_ := 7
    add_device_calls := 0, events := [] }

/-- The same record, not yet persisted. -/
def infoU : DeviceInfo := { infoX with database_id_ := -1 }

def sU : DeviceManager := { sX with devices_ := [infoU] }

/-- The persisted record remembered with no live backend. -/
def infoDead : DeviceInfo := { infoX with backends_ := [⟨none, "x"⟩] }

def sDead : DeviceManager := { sX with devices_ := [infoDead] }

/-- Two rows (unpersisted "x" first, then a persisted row for "y") with three
outstanding persistent indexes, for the removal-renumbering scenario. -/
def infoY : DeviceInfo := { infoX with backends_ := [⟨some 0, "y"⟩] }

def sTwo : DeviceManager :=
  { devices_ := [infoU, infoY], pindexes := [some 0, some 1, none]
    active_tasks_ := [], next_id_ := 7, add_device_calls := 0, events := [] }

/-- The session `Connect envAB 0 sX` builds (the factory got the last
matching URL `b://2`, the persisted id 5, and `first_time = false`). -/
def devX : ConnectedDevice := ⟨⟨"b", "2"⟩, some 0, "x", 5, false⟩

/-- The record `PhysicalDeviceAdded` builds for a brand-new device "x" seen
through lister 0. -/
def addedX : DeviceInfo :=
  { database_id_ := -1, friendly_name_ := String.append "dev-" "x", size_ := 100
    icon_name_ := "drive-removable-media-usb-pendrive"
    backends_ := [⟨some 0, "x"⟩], device_ := none, task_percentage_ := -1 }

/-- The registry right after that connect. -/
def sConn : DeviceManager := (Connect envAB 0 sX).2

/-- One registry state refines another on bindings: every record of the new
state carries the binding list of some record of the old state.  All
operations that do not edit binding lists produce refinements. -/
def backendsRefined (s s2 : DeviceManager) : Prop :=
  ∀ a ∈ s2.devices_, ∃ d ∈ s.devices_, a.backends_ = d.backends_

/-!
General helper lemmas.
-/

theorem getElem?_some_lt {α : Type} {l : List α} {i : Nat} {a : α}
    (h : l[i]? = some a) : i < l.length :=
  (List.getElem?_eq_some.mp h).1

theorem set_getElem?_self {α : Type} {l : List α} {i : Nat} {a : α}
    (h : l[i]? = some a) : l.set i a = l := by
  induction l generalizing i with
  | nil => simp at h
  | cons x xs ih =>
    cases i with
    | zero => simp at h; simp [h]
    | succ n =>
      simp only [List.getElem?_cons_succ] at h
      simp [List.set, ih h]

theorem splitOnAux_ne_nil (s sep : String) (b i j : String.Pos) (r : List String) :
    String.splitOnAux s sep b i j r ≠ [] := by
  induction b, i, j, r using String.splitOnAux.induct s sep with
  | case1 b i j r h =>
    rw [String.splitOnAux]
    simp [h]
  | case2 b i j r h1 h2 i' j' h3 ih =>
    rw [String.splitOnAux]
    simp only [h1, h2, h3, if_pos, if_neg, if_true, if_false]
    simp_all
  | case3 b i j r h1 h2 i' j' h3 ih =>
    rw [String.splitOnAux]
    simp_all
  | case4 b i j r h1 h2 ih =>
    rw [String.splitOnAux]
    simp_all

theorem splitOn_ne_nil (s sep : String) : s.splitOn sep ≠ [] := by
  rw [String.splitOn]
  split
  · simp
  · exact splitOnAux_ne_nil s sep 0 0 0 []

/-!
Lemmas about the record finders.
-/

theorem findDeviceByIdAux_some {id : String} {l : List DeviceInfo} {i : Nat}
    (h : findDeviceByIdAux id l = some i) :
    ∃ d, l[i]? = some d ∧ hasBackendId d id := by
  induction l generalizing i with
  | nil => simp [findDeviceByIdAux] at h
  | cons x xs ih =>
    by_cases hx : hasBackendId x id
    · simp only [findDeviceByIdAux, if_pos hx, Option.some.injEq] at h
      subst h
      exact ⟨x, by simp, hx⟩
    · simp only [findDeviceByIdAux, if_neg hx, Option.map_eq_some'] at h
      obtain ⟨j, hj, rfl⟩ := h
      obtain ⟨d, hd, hm⟩ := ih hj
      exact ⟨d, by simpa using hd, hm⟩

theorem findDeviceByIdAux_none {id : String} {l : List DeviceInfo}
    (h : findDeviceByIdAux id l = none) :
    ∀ d ∈ l, ¬ hasBackendId d id := by
  induction l with
  | nil => simp
  | cons x xs ih =>
    by_cases hx : hasBackendId x id
    · simp [findDeviceByIdAux, hx] at h
    · simp only [findDeviceByIdAux, if_neg hx, Option.map_eq_none'] at h
      intro d hd
      rcases List.mem_cons.mp hd with hd | hd
      · simpa [hd] using hx
      · exact ih h d hd

theorem findDeviceByIdAux_append_of_none {id : String} {l : List DeviceInfo}
    {d : DeviceInfo} (h : findDeviceByIdAux id l = none) (hd : hasBackendId d id) :
    findDeviceByIdAux id (l ++ [d]) = some l.length := by
  induction l with
  | nil => simp [findDeviceByIdAux, hd]
  | cons x xs ih =>
    by_cases hx : hasBackendId x id
    · simp [findDeviceByIdAux, hx] at h
    · simp only [findDeviceByIdAux, if_neg hx, Option.map_eq_none'] at h
      simp [findDeviceByIdAux, hx, ih h]

theorem findDeviceByIdAux_set_of_none {id : String} {l : List DeviceInfo} {j : Nat}
    {d : DeviceInfo} (h : findDeviceByIdAux id l = none) (hj : j < l.length)
    (hd : hasBackendId d id) :
    findDeviceByIdAux id (l.set j d) = some j := by
  induction l generalizing j with
  | nil => simp at hj
  | cons x xs ih =>
    by_cases hx : hasBackendId x id
    · simp [findDeviceByIdAux, hx] at h
    · simp only [findDeviceByIdAux, if_neg hx, Option.map_eq_none'] at h
      cases j with
      | zero => simp [List.set, findDeviceByIdAux, hd]
      | succ n =>
        simp only [List.length_cons, Nat.succ_lt_succ_iff] at hj
        simp [List.set, findDeviceByIdAux, hx, ih h hj]

theorem findDeviceByUrlAux_some {env : Env} {urls : List Url} {l : List DeviceInfo}
    {i : Nat} (h : findDeviceByUrlAux env urls l = some i) :
    ∃ d, l[i]? = some d := by
  induction l generalizing i with
  | nil => simp [findDeviceByUrlAux] at h
  | cons x xs ih =>
    by_cases hx : deviceMatchesUrl env urls x
    · simp only [findDeviceByUrlAux, if_pos hx, Option.some.injEq] at h
      subst h
      exact ⟨x, by simp⟩
    · simp only [findDeviceByUrlAux, if_neg hx, Option.map_eq_some'] at h
      obtain ⟨j, hj, rfl⟩ := h
      obtain ⟨d, hd⟩ := ih hj
      exact ⟨d, by simpa using hd⟩

/-!
Lemmas about the binding-update helpers.
-/

theorem length_updateBackendLister (id : String) (v : Option Nat) (bs : List Backend) :
    (updateBackendLister id v bs).length = bs.length := by
  induction bs with
  | nil => rfl
  | cons b rest ih =>
    simp only [updateBackendLister]
    split <;> simp [ih]

theorem updateBackendLister_eq_self {id : String} {v : Option Nat} {bs : List Backend}
    (h : ∀ b ∈ bs, b.unique_id_ = id → b.lister_ = v) :
    updateBackendLister id v bs = bs := by
  induction bs with
  | nil => rfl
  | cons b rest ih =>
    simp only [updateBackendLister]
    split
    · next hb =>
      have hv := h b (by simp) hb
      cases b
      simp_all
    · simp only [List.cons.injEq, true_and]
      exact ih (fun x hx hid => h x (by simp [hx]) hid)

theorem updateBackendLister_all_dead {id : String} {bs : List Backend}
    (hcnt : bs.countP (fun b => b.unique_id_ == id) = 1)
    (hdead : ∀ b ∈ bs, b.unique_id_ ≠ id → b.lister_ = none) :
    ∀ b ∈ updateBackendLister id none bs, b.lister_ = none := by
  induction bs with
  | nil => simp [updateBackendLister]
  | cons b rest ih =>
    by_cases hb : b.unique_id_ = id
    · have hbeq : (b.unique_id_ == id) = true := by simp [hb]
      simp only [List.countP_cons, hbeq, if_true] at hcnt
      have hrest : ∀ x ∈ rest, x.lister_ = none := by
        intro x hx
        by_cases hxid : x.unique_id_ = id
        · exfalso
          have hpos : 0 < rest.countP (fun b => b.unique_id_ == id) :=
            List.countP_pos_iff.mpr ⟨x, hx, by simp [hxid]⟩
          omega
        · exact hdead x (by simp [hx]) hxid
      intro x hx
      simp only [updateBackendLister, if_pos hb] at hx
      rcases List.mem_cons.mp hx with hx | hx
      · simp [hx]
      · exact hrest x hx
    · have hbeq : (b.unique_id_ == id) = false := by simp [hb]
      simp only [List.countP_cons, hbeq, Bool.false_eq_true, if_false, Nat.add_zero] at hcnt
      intro x hx
      simp only [updateBackendLister, if_neg hb] at hx
      rcases List.mem_cons.mp hx with hx | hx
      · subst hx
        exact hdead x (by simp) hb
      · exact ih hcnt (fun y hy => hdead y (by simp [hy])) x hx

/-!
Lemmas about `BestBackend`.
-/

theorem bestBackendAux_all_dead {env : Env} {bs : List Backend} {p : Int}
    {r : Option Backend} (h : ∀ b ∈ bs, b.lister_ = none) :
    bestBackendAux env bs p r = r := by
  induction bs generalizing p r with
  | nil => rfl
  | cons b rest ih =>
    have hb := h b (by simp)
    simp only [bestBackendAux, hb]
    exact ih (fun x hx => h x (by simp [hx]))

theorem bestLister_all_dead {env : Env} {info : DeviceInfo}
    (h : ∀ b ∈ info.backends_, b.lister_ = none) (hne : info.backends_ ≠ []) :
    bestLister env info = none := by
  unfold bestLister BestBackend
  rw [bestBackendAux_all_dead h]
  cases hbs : info.backends_ with
  | nil => exact absurd hbs hne
  | cons b rest =>
    simp only [List.head?]
    exact h b (by simp [hbs])

theorem BestBackend_isSome {env : Env} {info : DeviceInfo} (h : info.backends_ ≠ []) :
    (BestBackend env info).isSome = true := by
  unfold BestBackend
  cases haux : bestBackendAux env info.backends_ (-1) none with
  | some b => simp
  | none =>
    cases hbs : info.backends_ with
    | nil => exact absurd hbs h
    | cons b rest => simp

/-!
Projection lemmas for the two state-update helpers.
-/

@[simp] theorem emitEvent_devices (e : Event) (s : DeviceManager) :
    (emitEvent e s).devices_ = s.devices_ := rfl

@[simp] theorem emitEvent_pindexes (e : Event) (s : DeviceManager) :
    (emitEvent e s).pindexes = s.pindexes := rfl

@[simp] theorem emitEvent_active_tasks (e : Event) (s : DeviceManager) :
    (emitEvent e s).active_tasks_ = s.active_tasks_ := rfl

@[simp] theorem emitEvent_next_id (e : Event) (s : DeviceManager) :
    (emitEvent e s).next_id_ = s.next_id_ := rfl

@[simp] theorem emitEvent_add_device_calls (e : Event) (s : DeviceManager) :
    (emitEvent e s).add_device_calls = s.add_device_calls := rfl

@[simp] theorem emitEvent_events (e : Event) (s : DeviceManager) :
    (emitEvent e s).events = s.events ++ [e] := rfl

@[simp] theorem setDevice_devices (s : DeviceManager) (row : Nat) (info : DeviceInfo) :
    (setDevice s row info).devices_ = s.devices_.set row info := rfl

@[simp] theorem setDevice_pindexes (s : DeviceManager) (row : Nat) (info : DeviceInfo) :
    (setDevice s row info).pindexes = s.pindexes := rfl

@[simp] theorem setDevice_active_tasks (s : DeviceManager) (row : Nat) (info : DeviceInfo) :
    (setDevice s row info).active_tasks_ = s.active_tasks_ := rfl

@[simp] theorem setDevice_next_id (s : DeviceManager) (row : Nat) (info : DeviceInfo) :
    (setDevice s row info).next_id_ = s.next_id_ := rfl

@[simp] theorem setDevice_add_device_calls (s : DeviceManager) (row : Nat) (info : DeviceInfo) :
    (setDevice s row info).add_device_calls = s.add_device_calls := rfl

@[simp] theorem setDevice_events (s : DeviceManager) (row : Nat) (info : DeviceInfo) :
    (setDevice s row info).events = s.events := rfl

/-!
Characterizations of `Connect`.
-/

theorem Connect_first_time_state {env : Env} {row : Nat} {s : DeviceManager}
    {info : DeviceInfo} {bb : Backend} {l : Nat}
    (h1 : s.devices_[row]? = some info) (h2 : info.device_ = none)
    (h3 : BestBackend env info = some bb) (h4 : bb.lister_ = some l)
    (h5 : info.database_id_ = -1) :
    ∃ info', (Connect env row s).2.devices_ = s.devices_.set row info'
      ∧ info'.database_id_ = (s.next_id_ : Int)
      ∧ info'.backends_ = info.backends_
      ∧ (Connect env row s).2.add_device_calls = s.add_device_calls + 1 := by
  have hft : decide (info.database_id_ = -1) = true := by simp [h5]
  simp only [Connect, h1, h2, h3, h4, hft, if_true]
  split
  · exact ⟨_, rfl, rfl, rfl, rfl⟩
  · split
    · exact ⟨_, rfl, rfl, rfl, rfl⟩
    · split
      · exact ⟨_, rfl, rfl, rfl, rfl⟩
      · exact ⟨_, rfl, rfl, rfl, rfl⟩

theorem Connect_persisted_state {env : Env} {row : Nat} {s : DeviceManager}
    {info : DeviceInfo}
    (h1 : s.devices_[row]? = some info) (h5 : info.database_id_ ≠ -1) :
    (Connect env row s).2.add_device_calls = s.add_device_calls
    ∧ ((Connect env row s).2.devices_[row]?).map (·.database_id_) = some info.database_id_
    ∧ (Connect env row s).2.devices_.length = s.devices_.length := by
  have hlt : row < s.devices_.length := getElem?_some_lt h1
  simp only [Connect, h1]
  cases hdev : info.device_ with
  | some d => simp [h1]
  | none =>
    cases hbb : BestBackend env info with
    | none => simp [h1, hbb]
    | some bb =>
      cases hbl : bb.lister_ with
      | none => simp [h1, hbb, hbl]
      | some l =>
        simp only [hbb, hbl]
        split
        · simp [h5, h1, List.getElem?_set_self hlt]
        · split
          · simp [h5, h1, List.getElem?_set_self hlt]
          · split
            · simp [h5, h1, List.getElem?_set_self hlt]
            · simp [h5, h1, List.getElem?_set_self hlt]

theorem Disconnect_state (row : Nat) (s : DeviceManager) :
    (Disconnect row s).add_device_calls = s.add_device_calls
    ∧ (Disconnect row s).devices_.length = s.devices_.length
    ∧ ((Disconnect row s).devices_[row]?).map (·.database_id_) =
        (s.devices_[row]?).map (·.database_id_) := by
  unfold Disconnect
  cases h1 : s.devices_[row]? with
  | none =>
    refine ⟨rfl, rfl, ?_⟩
    show (s.devices_[row]?).map (·.database_id_) =
      Option.map (·.database_id_) (none : Option DeviceInfo)
    rw [h1]
  | some info =>
    cases hdev : info.device_ with
    | none => simp [hdev, h1]
    | some d =>
      have hlt : row < s.devices_.length := getElem?_some_lt h1
      simp [hdev, h1, List.getElem?_set_self hlt]

/-!
Persistence of the database id across connect/disconnect cycles.
-/

theorem applyConnOps_nil (env : Env) (row : Nat) (s : DeviceManager) :
    applyConnOps env row [] s = s := rfl

theorem applyConnOps_cons (env : Env) (row : Nat) (op : ConnOp) (rest : List ConnOp)
    (s : DeviceManager) :
    applyConnOps env row (op :: rest) s =
      applyConnOps env row rest (applyConnOp env row s op) := rfl

theorem connOps_keep_persisted {env : Env} {row : Nat} {d : Int} (hd : d ≠ -1) :
    ∀ (ops : List ConnOp) (s : DeviceManager),
      (s.devices_[row]?).map (·.database_id_) = some d →
      ((applyConnOps env row ops s).devices_[row]?).map (·.database_id_) = some d
      ∧ (applyConnOps env row ops s).add_device_calls = s.add_device_calls := by
  intro ops
  induction ops with
  | nil => exact fun s h => ⟨h, rfl⟩
  | cons op rest ih =>
    intro s h
    obtain ⟨info, hinfo, hdb⟩ := Option.map_eq_some'.mp h
    cases op with
    | conn =>
      obtain ⟨hcalls, hmap, _⟩ :=
        @Connect_persisted_state env row s info hinfo (by rw [hdb]; exact hd)
      have hnext := ih (Connect env row s).2 (by rw [hmap, hdb])
      simp only [applyConnOps_cons, applyConnOp]
      exact ⟨hnext.1, by rw [hnext.2, hcalls]⟩
    | disc =>
      obtain ⟨hcalls, _, hmap⟩ := Disconnect_state row s
      have hnext := ih (Disconnect row s) (by rw [hmap, h])
      simp only [applyConnOps_cons, applyConnOp]
      exact ⟨hnext.1, by rw [hnext.2, hcalls]⟩

/-- C5: connecting an unpersisted, physically-present row stores a fresh
database id and performs exactly one `AddDevice` persistence call; no later
sequence of disconnects and reconnects of that record performs another. -/
theorem first_connect_promotes_once (env : Env) (row : Nat) (s : DeviceManager)
    (info : DeviceInfo) (bb : Backend) (l : Nat) (ops : List ConnOp)
    (h1 : s.devices_[row]? = some info) (h2 : info.device_ = none)
    (h3 : BestBackend env info = some bb) (h4 : bb.lister_ = some l)
    (h5 : info.database_id_ = -1) :
    (((Connect env row s).2).devices_[row]?).map (·.database_id_) = some (s.next_id_ : Int)
    ∧ (Connect env row s).2.add_device_calls = s.add_device_calls + 1
    ∧ (applyConnOps env row ops (Connect env row s).2).add_device_calls
        = s.add_device_calls + 1 := by
  have hlt : row < s.devices_.length := getElem?_some_lt h1
  obtain ⟨info', hset, hdb, _, hcalls⟩ := Connect_first_time_state h1 h2 h3 h4 h5
  have hmap : (((Connect env row s).2).devices_[row]?).map (·.database_id_)
      = some (s.next_id_ : Int) := by
    rw [hset, List.getElem?_set_self hlt, Option.map_some', hdb]
  have hne : (s.next_id_ : Int) ≠ -1 := by
    have := Int.natCast_nonneg s.next_id_
    omega
  have hrest := @connOps_keep_persisted env row _ hne ops
    (Connect env row s).2 hmap
  exact ⟨hmap, hcalls, by rw [hrest.2, hcalls]⟩

/-- C5 witness: a live, unpersisted row is promoted once (to id 7) and a
subsequent disconnect/reconnect/disconnect/reconnect cycle leaves the
`AddDevice` call count at one. -/
theorem first_connect_promotes_once_witness :
    sU.devices_[0]? = some infoU ∧ infoU.device_ = none
    ∧ BestBackend envAB infoU = some ⟨some 0, "x"⟩ ∧ (Backend.lister_ ⟨some 0, "x"⟩) = some 0
    ∧ infoU.database_id_ = -1
    ∧ ((((Connect envAB 0 sU).2).devices_[0]?).map (·.database_id_) = some ((7 : Nat) : Int)
      ∧ (Connect envAB 0 sU).2.add_device_calls = sU.add_device_calls + 1
      ∧ (applyConnOps envAB 0 [ConnOp.disc, ConnOp.conn, ConnOp.disc, ConnOp.conn]
          (Connect envAB 0 sU).2).add_device_calls = sU.add_device_calls + 1) :=
  ⟨by decide, by decide, by decide, by decide, by decide,
   first_connect_promotes_once envAB 0 sU infoU ⟨some 0, "x"⟩ 0
     [ConnOp.disc, ConnOp.conn, ConnOp.disc, ConnOp.conn]
     (by decide) (by decide) (by decide) (by decide) (by decide)⟩

/-- C10: for an unpersisted row with a live primary binding, `Connect`
persists the record (one `AddDevice` call, database id set to the fresh id,
which is never the "unsaved" sentinel) no matter what the connect attempt
returns — the promotion happens before URL resolution and is not rolled back
on any failure. -/
theorem connect_persists_before_url_resolution (env : Env) (row : Nat)
    (s : DeviceManager) (info : DeviceInfo) (bb : Backend) (l : Nat)
    (h1 : s.devices_[row]? = some info) (h2 : info.device_ = none)
    (h3 : BestBackend env info = some bb) (h4 : bb.lister_ = some l)
    (h5 : info.database_id_ = -1) :
    ∀ res s', Connect env row s = (res, s') →
      (s'.devices_[row]?).map (·.database_id_) = some (s.next_id_ : Int)
      ∧ (s.next_id_ : Int) ≠ -1
      ∧ s'.add_device_calls = s.add_device_calls + 1 := by
  intro res s' hpair
  have hs' : s' = (Connect env row s).2 := by rw [hpair]
  subst hs'
  have hlt : row < s.devices_.length := getElem?_some_lt h1
  obtain ⟨info', hset, hdb, _, hcalls⟩ := Connect_first_time_state h1 h2 h3 h4 h5
  refine ⟨?_, ?_, hcalls⟩
  · rw [hset, List.getElem?_set_self hlt, Option.map_some', hdb]
  · have := Int.natCast_nonneg s.next_id_
    omega

/-- C10 witness: with no scheme registered the connect attempt fails
(returns no session, emits the unsupported-type error), yet the record end up
persisted with id 7 and one `AddDevice` call was made. -/
theorem connect_persists_before_url_resolution_witness :
    sU.devices_[0]? = some infoU ∧ infoU.device_ = none
    ∧ BestBackend envNoSchemes infoU = some ⟨some 0, "x"⟩
    ∧ (Backend.lister_ ⟨some 0, "x"⟩) = some 0
    ∧ infoU.database_id_ = -1
    ∧ (Connect envNoSchemes 0 sU).1 = none
    ∧ (((Connect envNoSchemes 0 sU).2.devices_[0]?).map (·.database_id_)
          = some ((7 : Nat) : Int)
      ∧ ((7 : Nat) : Int) ≠ -1
      ∧ (Connect envNoSchemes 0 sU).2.add_device_calls = sU.add_device_calls + 1) :=
  ⟨by decide, by decide, by decide, by decide, by decide, by decide,
   connect_persists_before_url_resolution envNoSchemes 0 sU infoU ⟨some 0, "x"⟩ 0
     (by decide) (by decide) (by decide) (by decide) (by decide)
     (Connect envNoSchemes 0 sU).1 (Connect envNoSchemes 0 sU).2 rfl⟩

/-- C7 (amended): `Connect` on a row whose primary binding has no live
backend returns no session and leaves the whole registry state — events
included — exactly as it was; in particular no error event is emitted for
this failure. -/
theorem connect_not_present_silent (env : Env) (row : Nat) (s : DeviceManager)
    (info : DeviceInfo)
    (h1 : s.devices_[row]? = some info) (h2 : info.device_ = none)
    (h3 : bestLister env info = none) :
    Connect env row s = (none, s) := by
  unfold bestLister at h3
  simp only [Connect, h1, h2]
  cases hbb : BestBackend env info with
  | none => simp [hbb]
  | some bb =>
    rw [hbb] at h3
    have h3' : bb.lister_ = none := by simpa using h3
    simp [hbb, h3']

/-- C7 witness: the amended behaviour at the remembered row `sDead`. -/
theorem connect_not_present_silent_witness :
    sDead.devices_[0]? = some infoDead ∧ infoDead.device_ = none
    ∧ bestLister envAB infoDead = none
    ∧ Connect envAB 0 sDead = (none, sDead) :=
  ⟨by decide, by decide, by decide,
   connect_not_present_silent envAB 0 sDead infoDead (by decide) (by decide) (by decide)⟩

/-- C7 counterexample to the claim as stated: on a row with no live backend
the failure is *not* reported on the error-event channel — `Connect` returns
no session and the event log stays empty. -/
theorem connect_not_present_emits_no_error :
    (Connect envAB 0 sDead).1 = none ∧ (Connect envAB 0 sDead).2.events = [] := by
  decide

/-- C1: the URL-selection loop of `Connect` has no `break`, so with both
schemes `a` and `b` registered and candidate list `[a://1, b://2]` the
factory receives the *last* matching URL `b://2`, although the first
candidate `a://1` also has a registered scheme (the code's own comment, and
the spec, say the first should win). -/
theorem connect_takes_last_supported_url :
    ((envAB.listers 0).deviceUrls "x") = [⟨"a", "1"⟩, ⟨"b", "2"⟩]
    ∧ envAB.schemes.contains "a" = true
    ∧ envAB.schemes.contains "b" = true
    ∧ (Connect envAB 0 sX).1.map (·.url) = some ⟨"b", "2"⟩ := by
  decide

/-- C2: when the factory returns nothing, `Connect` stores no session and
returns none, but the `DeviceConnected` ("connected") notification is
emitted anyway — the emission sits outside the success branch. -/
theorem connect_emits_connected_on_construction_failure :
    (Connect envNoFactory 0 sX).1 = none
    ∧ ((Connect envNoFactory 0 sX).2.devices_.map (·.device_)) = [none]
    ∧ (Connect envNoFactory 0 sX).2.events = [Event.deviceConnected 0] := by
  decide

/-!
Behaviour of `PhysicalDeviceRemoved`.
-/

theorem countP_one_ne_nil {id : String} {bs : List Backend}
    (h : bs.countP (fun b => b.unique_id_ == id) = 1) : bs ≠ [] := by
  intro hnil
  subst hnil
  rw [List.countP_nil] at h
  exact absurd h (by decide)

/-- C3 (amended): removing the only live binding of a persisted record keeps
the record at the same row with the binding retained but unreachable, tears
down a session produced from that backend, and a subsequent `Role_State`
read returns `Remembered` (not `NotConnected`: the code's remembered state is
what a persisted record with no live backend reports). -/
theorem persisted_remove_retains_record (env : Env) (l : Nat) (id : String)
    (s : DeviceManager) (i : Nat) (info : DeviceInfo)
    (h1 : findDeviceByIdAux id s.devices_ = some i)
    (h2 : s.devices_[i]? = some info)
    (h3 : info.database_id_ ≠ -1)
    (h4 : ∀ b ∈ info.backends_, b.unique_id_ ≠ id → b.lister_ = none)
    (h5 : info.backends_.countP (fun b => b.unique_id_ == id) = 1)
    (h6 : ∀ dev, info.device_ = some dev → dev.lister = some l) :
    (PhysicalDeviceRemoved env l id s).devices_.length = s.devices_.length
    ∧ ∃ info', (PhysicalDeviceRemoved env l id s).devices_[i]? = some info'
        ∧ info'.backends_.length = info.backends_.length
        ∧ (∀ b ∈ info'.backends_, b.lister_ = none)
        ∧ info'.device_ = none
        ∧ dataState env (PhysicalDeviceRemoved env l id s) i
            = some ConnState.Remembered := by
  have hlt : i < s.devices_.length := getElem?_some_lt h2
  have hdead := updateBackendLister_all_dead h5 h4
  have hne : updateBackendLister id none info.backends_ ≠ [] := by
    intro hnil
    have := length_updateBackendLister id none info.backends_
    rw [hnil] at this
    exact countP_one_ne_nil h5 (List.length_eq_zero.mp this.symm)
  simp only [PhysicalDeviceRemoved, h1, h2, if_pos h3]
  cases hdev : info.device_ with
  | none =>
    simp only [hdev]
    refine ⟨by simp,
      ⟨(({ info with backends_ := updateBackendLister id none info.backends_, device_ := none }) : DeviceInfo),
      by simp [List.getElem?_set_self hlt], ?_, ?_, rfl, ?_⟩⟩
    · exact length_updateBackendLister id none info.backends_
    · exact hdead
    · have hbl : bestLister env
          (({ info with backends_ := updateBackendLister id none info.backends_, device_ := none }) : DeviceInfo) = none :=
        bestLister_all_dead hdead hne
      simp [dataState, List.getElem?_set_self hlt, hbl]
  | some dev =>
    have hdl : dev.lister = some l := h6 dev hdev
    simp only [hdev, hdl, if_pos, if_true]
    refine ⟨by simp,
      ⟨(({ info with backends_ := updateBackendLister id none info.backends_, device_ := none }) : DeviceInfo),
      by simp [List.getElem?_set_self hlt], ?_, ?_, rfl, ?_⟩⟩
    · exact length_updateBackendLister id none info.backends_
    · exact hdead
    · have hbl : bestLister env
          (({ info with backends_ := updateBackendLister id none info.backends_, device_ := none }) : DeviceInfo) = none :=
        bestLister_all_dead hdead hne
      simp [dataState, List.getElem?_set_self hlt, hbl]

/-- C3 witness: the scenario on the concrete one-row registry `sX`. -/
theorem persisted_remove_retains_record_witness :
    findDeviceByIdAux "x" sX.devices_ = some 0 ∧ sX.devices_[0]? = some infoX
    ∧ infoX.database_id_ ≠ -1
    ∧ ((PhysicalDeviceRemoved envAB 0 "x" sX).devices_.length = sX.devices_.length
      ∧ ∃ info', (PhysicalDeviceRemoved envAB 0 "x" sX).devices_[0]? = some info'
          ∧ info'.backends_.length = infoX.backends_.length
          ∧ (∀ b ∈ info'.backends_, b.lister_ = none)
          ∧ info'.device_ = none
          ∧ dataState envAB (PhysicalDeviceRemoved envAB 0 "x" sX) 0
              = some ConnState.Remembered) :=
  ⟨by decide, by decide, by decide,
   persisted_remove_retains_record envAB 0 "x" sX 0 infoX (by decide) (by decide)
     (by decide) (by decide) (by decide) (by decide)⟩

/-- C3 counterexample to the claim as stated: after the only live binding of
the persisted row `sX` is removed, the row survives but its `Role_State`
read is `Remembered`, not the claimed `NotConnected`. -/
theorem removed_persisted_state_not_notconnected :
    (PhysicalDeviceRemoved envAB 0 "x" sX).devices_.length = 1
    ∧ dataState envAB (PhysicalDeviceRemoved envAB 0 "x" sX) 0
        = some ConnState.Remembered
    ∧ dataState envAB (PhysicalDeviceRemoved envAB 0 "x" sX) 0
        ≠ some ConnState.NotConnected := by
  decide

/-- C6: removing the last binding of an unpersisted record deletes the row;
outstanding persistent indexes at the removed row become invalid, those
above it shift down by one, those below it are untouched. -/
theorem unpersisted_cleanup_reindexes (env : Env) (l : Nat) (id : String)
    (s : DeviceManager) (i : Nat) (info : DeviceInfo) (b : Backend)
    (h1 : findDeviceByIdAux id s.devices_ = some i)
    (h2 : s.devices_[i]? = some info)
    (h3 : info.database_id_ = -1)
    (h4 : info.backends_ = [b]) (h5 : b.unique_id_ = id) :
    (PhysicalDeviceRemoved env l id s).devices_ = s.devices_.eraseIdx i
    ∧ (PhysicalDeviceRemoved env l id s).devices_.length + 1 = s.devices_.length
    ∧ (PhysicalDeviceRemoved env l id s).events = s.events ++ [Event.rowsRemoved i]
    ∧ ∀ (h r : Nat), s.pindexes[h]? = some (some r) →
        (r = i → (PhysicalDeviceRemoved env l id s).pindexes[h]? = some none)
        ∧ (r > i → (PhysicalDeviceRemoved env l id s).pindexes[h]?
            = some (some (r - 1)))
        ∧ (r < i → (PhysicalDeviceRemoved env l id s).pindexes[h]? = some (some r)) := by
  have hlt : i < s.devices_.length := getElem?_some_lt h2
  have hrm : removeFirstBackend id info.backends_ = [] := by
    rw [h4]
    simp [removeFirstBackend, h5]
  simp only [PhysicalDeviceRemoved, h1, h2, h3]
  simp only [ne_eq, not_true_eq_false, if_false, hrm, if_pos, if_true, removeRow]
  refine ⟨by trivial, ?_, by trivial, ?_⟩
  · rw [List.length_eraseIdx_of_lt hlt]
    omega
  · intro h r hr
    simp only [renumberPindexes, List.getElem?_map, hr, Option.map_some']
    refine ⟨fun hri => ?_, fun hri => ?_, fun hri => ?_⟩
    · simp [hri]
    · simp [hri, Nat.ne_of_gt hri, Nat.lt_of_lt_of_le hri (Nat.le_refl r)]
    · have hne : r ≠ i := Nat.ne_of_lt hri
      have hnp : ¬ r > i := by omega
      simp [hne, hnp]

/-- C6 witness: on the two-row registry `sTwo`, removing unpersisted row 0
drops it; the persistent index at row 0 becomes invalid and the one at row 1
moves to row 0. -/
theorem unpersisted_cleanup_reindexes_witness :
    findDeviceByIdAux "x" sTwo.devices_ = some 0 ∧ sTwo.devices_[0]? = some infoU
    ∧ infoU.database_id_ = -1 ∧ infoU.backends_ = [⟨some 0, "x"⟩]
    ∧ ((PhysicalDeviceRemoved envAB 0 "x" sTwo).devices_ = sTwo.devices_.eraseIdx 0
      ∧ (PhysicalDeviceRemoved envAB 0 "x" sTwo).devices_.length + 1
          = sTwo.devices_.length
      ∧ (PhysicalDeviceRemoved envAB 0 "x" sTwo).events
          = sTwo.events ++ [Event.rowsRemoved 0]
      ∧ ∀ (h r : Nat), sTwo.pindexes[h]? = some (some r) →
          (r = 0 → (PhysicalDeviceRemoved envAB 0 "x" sTwo).pindexes[h]? = some none)
          ∧ (r > 0 → (PhysicalDeviceRemoved envAB 0 "x" sTwo).pindexes[h]?
              = some (some (r - 1)))
          ∧ (r < 0 → (PhysicalDeviceRemoved envAB 0 "x" sTwo).pindexes[h]?
              = some (some r))) :=
  ⟨by decide, by decide, by decide, by decide,
   unpersisted_cleanup_reindexes envAB 0 "x" sTwo 0 infoU ⟨some 0, "x"⟩
     (by decide) (by decide) (by decide) (by decide) (by decide)⟩

/-!
Counting bindings for the merge-idempotence property.
-/

theorem countP_zero_of_not_has {id : String} {d : DeviceInfo}
    (h : ¬ hasBackendId d id) :
    d.backends_.countP (fun b => b.unique_id_ == id) = 0 := by
  rw [List.countP_eq_zero]
  intro b hb
  simp only [beq_iff_eq]
  exact fun he => h ⟨b, hb, he⟩

theorem countBindings_sum_zero {id : String} {l : List DeviceInfo}
    (hall : ∀ x ∈ l, x.backends_.countP (fun b => b.unique_id_ == id) = 0) :
    (l.map (fun x => x.backends_.countP (fun b => b.unique_id_ == id))).sum = 0 := by
  induction l with
  | nil => rfl
  | cons x xs ih =>
    simp only [List.map_cons, List.sum_cons, hall x (by simp), Nat.zero_add]
    exact ih (fun y hy => hall y (by simp [hy]))

theorem countBindings_set_one {id : String} {l : List DeviceInfo} {j : Nat}
    {d : DeviceInfo}
    (hall : ∀ x ∈ l, x.backends_.countP (fun b => b.unique_id_ == id) = 0)
    (hj : j < l.length)
    (hd : d.backends_.countP (fun b => b.unique_id_ == id) = 1) :
    ((l.set j d).map (fun x => x.backends_.countP (fun b => b.unique_id_ == id))).sum
      = 1 := by
  induction l generalizing j with
  | nil => simp at hj
  | cons x xs ih =>
    cases j with
    | zero =>
      simp only [List.set, List.map_cons, List.sum_cons, hd]
      rw [countBindings_sum_zero (fun y hy => hall y (by simp [hy]))]
    | succ n =>
      simp only [List.length_cons, Nat.succ_lt_succ_iff] at hj
      simp only [List.set, List.map_cons, List.sum_cons, hall x (by simp)]
      rw [ih (fun y hy => hall y (by simp [hy])) hj]

theorem countBindings_append_one {id : String} {l : List DeviceInfo} {d : DeviceInfo}
    (hall : ∀ x ∈ l, x.backends_.countP (fun b => b.unique_id_ == id) = 0)
    (hd : d.backends_.countP (fun b => b.unique_id_ == id) = 1) :
    ((l ++ [d]).map (fun x => x.backends_.countP (fun b => b.unique_id_ == id))).sum
      = 1 := by
  rw [List.map_append, List.sum_append, countBindings_sum_zero hall]
  simp [hd]

/-!
Shape of a first "device added" delivery for an unknown native id, and the
no-op nature of a second one.
-/

theorem physicalDeviceAdded_fresh_shape {env : Env} {l : Nat} {id : String}
    {s : DeviceManager} (h : findDeviceByIdAux id s.devices_ = none) :
    (∃ j info info', s.devices_[j]? = some info
      ∧ (PhysicalDeviceAdded env l id s).devices_ = s.devices_.set j info'
      ∧ info'.backends_ = info.backends_ ++ [⟨some l, id⟩]
      ∧ (PhysicalDeviceAdded env l id s).events = s.events ++ [Event.dataChanged j])
    ∨ (∃ info', (PhysicalDeviceAdded env l id s).devices_ = s.devices_ ++ [info']
      ∧ info'.backends_ = [⟨some l, id⟩]
      ∧ (PhysicalDeviceAdded env l id s).events
          = s.events ++ [Event.rowsInserted s.devices_.length]) := by
  simp only [PhysicalDeviceAdded, h]
  cases hurl : findDeviceByUrlAux env ((env.listers l).deviceUrls id) s.devices_ with
  | none =>
    simp only [hurl]
    exact Or.inr ⟨_, by trivial, by trivial, by trivial⟩
  | some j =>
    obtain ⟨info, hget⟩ := findDeviceByUrlAux_some hurl
    simp only [hurl, hget]
    split
    · exact Or.inl ⟨j, info, _, hget, by trivial, by trivial, by trivial⟩
    · exact Or.inl ⟨j, info, _, hget, by trivial, by trivial, by trivial⟩

theorem physicalDeviceAdded_existing {env : Env} {l : Nat} {id : String}
    {S : DeviceManager} {i : Nat}
    (hfind : findDeviceByIdAux id S.devices_ = some i)
    (hb : ∀ d ∈ S.devices_, ∀ b ∈ d.backends_, b.unique_id_ = id → b = ⟨some l, id⟩) :
    (PhysicalDeviceAdded env l id S).devices_ = S.devices_
    ∧ (PhysicalDeviceAdded env l id S).events = S.events ++ [Event.dataChanged i] := by
  obtain ⟨d, hget, hhas⟩ := findDeviceByIdAux_some hfind
  have hall : ∀ b ∈ d.backends_, b.unique_id_ = id → b.lister_ = some l := by
    intro b hbm hid
    rw [hb d (List.getElem?_mem hget) b hbm hid]
  simp only [PhysicalDeviceAdded, hfind, hget]
  rw [updateBackendLister_eq_self hall]
  constructor
  · show S.devices_.set i { d with backends_ := d.backends_ } = S.devices_
    exact set_getElem?_self hget
  · rfl

/-- C4: a first "device added" event for an unknown native id leaves exactly
one binding with that id in the registry, and delivering the identical event
again changes no record at all — it just refreshes that binding's backend
reference and emits one update notification for the row found by
`FindDeviceById`. -/
theorem physical_device_added_idempotent (env : Env) (l : Nat) (id : String)
    (s : DeviceManager) (h : findDeviceByIdAux id s.devices_ = none) :
    countBindings id (PhysicalDeviceAdded env l id s) = 1
    ∧ (PhysicalDeviceAdded env l id (PhysicalDeviceAdded env l id s)).devices_
        = (PhysicalDeviceAdded env l id s).devices_
    ∧ countBindings id (PhysicalDeviceAdded env l id (PhysicalDeviceAdded env l id s)) = 1
    ∧ ∃ i, findDeviceByIdAux id (PhysicalDeviceAdded env l id s).devices_ = some i
        ∧ (PhysicalDeviceAdded env l id (PhysicalDeviceAdded env l id s)).events
            = (PhysicalDeviceAdded env l id s).events ++ [Event.dataChanged i] := by
  have hnone := findDeviceByIdAux_none h
  have hzero : ∀ x ∈ s.devices_, x.backends_.countP (fun b => b.unique_id_ == id) = 0 :=
    fun x hx => countP_zero_of_not_has (hnone x hx)
  have hnob : ∀ x ∈ s.devices_, ∀ b ∈ x.backends_, b.unique_id_ ≠ id := by
    intro x hx b hbm hid
    exact hnone x hx ⟨b, hbm, hid⟩
  obtain hL | hR := @physicalDeviceAdded_fresh_shape env l id s h
  · obtain ⟨j, info, info', hget, hdev, hbk, _⟩ := hL
    have hj : j < s.devices_.length := getElem?_some_lt hget
    have hcnt1 : info'.backends_.countP (fun b => b.unique_id_ == id) = 1 := by
      rw [hbk, List.countP_append, hzero info (List.getElem?_mem hget)]
      simp
    have hc1 : countBindings id (PhysicalDeviceAdded env l id s) = 1 := by
      unfold countBindings
      rw [hdev]
      exact countBindings_set_one hzero hj hcnt1
    have hb : ∀ d ∈ (PhysicalDeviceAdded env l id s).devices_,
        ∀ b ∈ d.backends_, b.unique_id_ = id → b = ⟨some l, id⟩ := by
      rw [hdev]
      intro d hd b hbm hid
      rcases List.mem_or_eq_of_mem_set hd with hd | rfl
      · exact absurd hid (hnob d hd b hbm)
      · rw [hbk] at hbm
        rcases List.mem_append.mp hbm with hbm | hbm
        · exact absurd hid (hnob info (List.getElem?_mem hget) b hbm)
        · simpa using hbm
    have hhas' : hasBackendId info' id :=
      ⟨⟨some l, id⟩, by rw [hbk]; simp, rfl⟩
    have hfind1 : findDeviceByIdAux id (PhysicalDeviceAdded env l id s).devices_
        = some j := by
      rw [hdev]
      exact findDeviceByIdAux_set_of_none h hj hhas'
    obtain ⟨hdev2, hev2⟩ := @physicalDeviceAdded_existing env l id _ _ hfind1 hb
    refine ⟨hc1, hdev2, ?_, j, hfind1, hev2⟩
    unfold countBindings
    rw [hdev2]
    exact hc1
  · obtain ⟨info', hdev, hbk, _⟩ := hR
    have hcnt1 : info'.backends_.countP (fun b => b.unique_id_ == id) = 1 := by
      rw [hbk]
      simp
    have hc1 : countBindings id (PhysicalDeviceAdded env l id s) = 1 := by
      unfold countBindings
      rw [hdev]
      exact countBindings_append_one hzero hcnt1
    have hb : ∀ d ∈ (PhysicalDeviceAdded env l id s).devices_,
        ∀ b ∈ d.backends_, b.unique_id_ = id → b = ⟨some l, id⟩ := by
      rw [hdev]
      intro d hd b hbm hid
      rcases List.mem_append.mp hd with hd | hd
      · exact absurd hid (hnob d hd b hbm)
      · have : d = info' := by simpa using hd
        subst this
        rw [hbk] at hbm
        simpa using hbm
    have hhas' : hasBackendId info' id :=
      ⟨⟨some l, id⟩, by rw [hbk]; simp, rfl⟩
    have hfind1 : findDeviceByIdAux id (PhysicalDeviceAdded env l id s).devices_
        = some s.devices_.length := by
      rw [hdev]
      exact findDeviceByIdAux_append_of_none h hhas'
    obtain ⟨hdev2, hev2⟩ := @physicalDeviceAdded_existing env l id _ _ hfind1 hb
    refine ⟨hc1, hdev2, ?_, s.devices_.length, hfind1, hev2⟩
    unfold countBindings
    rw [hdev2]
    exact hc1

/-- C4 witness: delivering "device x added via lister 0" twice to the empty
registry yields one binding, identical device lists, and a single update
notification for row 0 on the second delivery. -/
theorem physical_device_added_idempotent_witness :
    findDeviceByIdAux "x"
      (initManager envAB [] 7).devices_ = none
    ∧ (countBindings "x" (PhysicalDeviceAdded envAB 0 "x" (initManager envAB [] 7)) = 1
      ∧ (PhysicalDeviceAdded envAB 0 "x"
          (PhysicalDeviceAdded envAB 0 "x" (initManager envAB [] 7))).devices_
        = (PhysicalDeviceAdded envAB 0 "x" (initManager envAB [] 7)).devices_
      ∧ countBindings "x" (PhysicalDeviceAdded envAB 0 "x"
          (PhysicalDeviceAdded envAB 0 "x" (initManager envAB [] 7))) = 1
      ∧ ∃ i, findDeviceByIdAux "x"
            (PhysicalDeviceAdded envAB 0 "x" (initManager envAB [] 7)).devices_ = some i
          ∧ (PhysicalDeviceAdded envAB 0 "x"
              (PhysicalDeviceAdded envAB 0 "x" (initManager envAB [] 7))).events
            = (PhysicalDeviceAdded envAB 0 "x" (initManager envAB [] 7)).events
              ++ [Event.dataChanged i]) :=
  ⟨by decide, physical_device_added_idempotent envAB 0 "x" (initManager envAB [] 7)
    (by decide)⟩

/-!
Task-progress overlay lemmas.
-/

theorem findIdx?_some_aux {α : Type} {p : α → Bool} :
    ∀ {l : List α} {i j : Nat}, List.findIdx? p l j = some i →
      j ≤ i ∧ ∃ a, l[i - j]? = some a ∧ p a = true := by
  intro l
  induction l with
  | nil => intro i j h; simp at h
  | cons x xs ih =>
    intro i j h
    rw [List.findIdx?_cons] at h
    by_cases hx : p x
    · simp only [hx, if_true, Option.some.injEq] at h
      subst h
      exact ⟨Nat.le_refl _, x, by simp, hx⟩
    · simp only [hx, Bool.false_eq_true, if_false] at h
      obtain ⟨hle, a, hget, hp⟩ := ih h
      refine ⟨Nat.le_of_succ_le hle, a, ?_, hp⟩
      have hij : i - j = (i - (j + 1)) + 1 := by omega
      rw [hij, List.getElem?_cons_succ]
      exact hget

theorem findIdx?_some {α : Type} {p : α → Bool} {l : List α} {i : Nat}
    (h : l.findIdx? p = some i) : ∃ a, l[i]? = some a ∧ p a = true := by
  obtain ⟨-, a, hget, hp⟩ := findIdx?_some_aux h
  exact ⟨a, by simpa using hget, hp⟩

theorem deviceTaskStarted_state {taskId : Nat} {dev : ConnectedDevice}
    {s : DeviceManager} {r : Nat} {info : DeviceInfo}
    (h1 : s.active_tasks_ = [])
    (h2 : s.devices_.findIdx? (fun i => i.device_ == some dev) = some r)
    (h3 : s.devices_[r]? = some info) :
    DeviceTaskStarted taskId dev s
      = emitEvent (Event.dataChanged r)
          (setDevice { s with pindexes := s.pindexes ++ [some r]
                              active_tasks_ := [(taskId, s.pindexes.length)] }
            r { info with task_percentage_ := 0 }) := by
  simp only [DeviceTaskStarted, h2, h1, mapInsert, h3]

theorem tasksChanged_single_present {s : DeviceManager} {tid hdl r : Nat}
    {info : DeviceInfo} {p pm : Nat}
    (h1 : s.active_tasks_ = [(tid, hdl)])
    (h2 : pindexRow s hdl = some r)
    (h3 : s.devices_[r]? = some info)
    (hpm : pm ≠ 0) :
    TasksChanged [⟨tid, p, pm⟩] s
      = emitEvent (Event.dataChanged r)
          (setDevice s r { info with task_percentage_ := ((p * 100 / pm : Nat) : Int) }) := by
  have hrow : pindexRow
      (emitEvent (Event.dataChanged r)
        (setDevice s r { info with task_percentage_ := ((p * 100 / pm : Nat) : Int) }))
      hdl = some r := h2
  simp only [TasksChanged, h1, List.map_cons, List.map_nil, List.foldl_cons,
    List.foldl_nil, tasksChangedStep, mapGet, if_pos, h2, h3, hpm, ne_eq,
    not_false_eq_true, if_true]
  simp only [List.filter, hrow]
  simp [tasksChangedFinish]

theorem tasksChanged_single_absent {s : DeviceManager} {tid hdl r : Nat}
    {info : DeviceInfo}
    (h1 : s.active_tasks_ = [(tid, hdl)])
    (h2 : pindexRow s hdl = some r)
    (h3 : s.devices_[r]? = some info) :
    TasksChanged [] s
      = emitEvent (Event.dataChanged r)
          (setDevice s r { info with task_percentage_ := -1 }) := by
  simp only [TasksChanged, List.foldl_nil, h1, List.map_cons, List.map_nil,
    tasksChangedFinish, h2, h3]

theorem tasksChanged_step_facts {s : DeviceManager} {tid hdl r : Nat}
    {info : DeviceInfo} {p pm : Nat}
    (h1 : s.active_tasks_ = [(tid, hdl)])
    (h2 : pindexRow s hdl = some r)
    (h3 : s.devices_[r]? = some info)
    (hpm : pm ≠ 0) :
    ((TasksChanged [⟨tid, p, pm⟩] s).devices_[r]?)
        = some { info with task_percentage_ := ((p * 100 / pm : Nat) : Int) }
    ∧ (TasksChanged [⟨tid, p, pm⟩] s).events = s.events ++ [Event.dataChanged r]
    ∧ (TasksChanged [⟨tid, p, pm⟩] s).active_tasks_ = [(tid, hdl)]
    ∧ pindexRow (TasksChanged [⟨tid, p, pm⟩] s) hdl = some r := by
  have hlt : r < s.devices_.length := getElem?_some_lt h3
  rw [tasksChanged_single_present h1 h2 h3 hpm]
  exact ⟨by simp [List.getElem?_set_self hlt], by simp, by simp [h1], h2⟩

/-- C8: starting a task on the row owning a connected session initializes its
progress to 0; snapshots carrying 0/10, 5/10, 10/10 for that task id drive
`task_percentage_` through 0, 50, 100, and the first snapshot without the id
clears it back to the absent sentinel −1 — one update notification for the
row per change. -/
theorem task_progress_lifecycle (s : DeviceManager) (dev : ConnectedDevice)
    (tid r : Nat) (info : DeviceInfo)
    (h1 : s.active_tasks_ = [])
    (h2 : s.devices_.findIdx? (fun i => i.device_ == some dev) = some r)
    (h3 : s.devices_[r]? = some info) :
    let s1 := DeviceTaskStarted tid dev s
    let s2 := TasksChanged [⟨tid, 0, 10⟩] s1
    let s3 := TasksChanged [⟨tid, 5, 10⟩] s2
    let s4 := TasksChanged [⟨tid, 10, 10⟩] s3
    let s5 := TasksChanged [] s4
    ((s1.devices_[r]?).map (·.task_percentage_) = some 0
      ∧ s1.events = s.events ++ [Event.dataChanged r])
    ∧ ((s2.devices_[r]?).map (·.task_percentage_) = some 0
      ∧ s2.events = s1.events ++ [Event.dataChanged r])
    ∧ ((s3.devices_[r]?).map (·.task_percentage_) = some 50
      ∧ s3.events = s2.events ++ [Event.dataChanged r])
    ∧ ((s4.devices_[r]?).map (·.task_percentage_) = some 100
      ∧ s4.events = s3.events ++ [Event.dataChanged r])
    ∧ ((s5.devices_[r]?).map (·.task_percentage_) = some (-1)
      ∧ s5.events = s4.events ++ [Event.dataChanged r]) := by
  intro s1 s2 s3 s4 s5
  have hlt : r < s.devices_.length := getElem?_some_lt h3
  have e1 : s1 = emitEvent (Event.dataChanged r)
      (setDevice { s with pindexes := s.pindexes ++ [some r]
                          active_tasks_ := [(tid, s.pindexes.length)] }
        r { info with task_percentage_ := 0 }) :=
    deviceTaskStarted_state h1 h2 h3
  have f1a : s1.active_tasks_ = [(tid, s.pindexes.length)] := by rw [e1]; rfl
  have f1p : pindexRow s1 (s.pindexes.length) = some r := by
    rw [e1]
    simp only [pindexRow, emitEvent_pindexes, setDevice_pindexes]
    rw [List.getElem?_concat_length]
  have f1d : s1.devices_[r]? = some { info with task_percentage_ := 0 } := by
    rw [e1]
    simp [List.getElem?_set_self hlt]
  have f1e : s1.events = s.events ++ [Event.dataChanged r] := by rw [e1]; rfl
  have hlt1 : r < s1.devices_.length := getElem?_some_lt f1d
  obtain ⟨f2d, f2e, f2a, f2p⟩ :=
    @tasksChanged_step_facts _ _ _ _ _ 0 10 f1a f1p f1d (by decide)
  obtain ⟨f3d, f3e, f3a, f3p⟩ :=
    @tasksChanged_step_facts _ _ _ _ _ 5 10 f2a f2p f2d (by decide)
  obtain ⟨f4d, f4e, f4a, f4p⟩ :=
    @tasksChanged_step_facts _ _ _ _ _ 10 10 f3a f3p f3d (by decide)
  have e5 : s5 = emitEvent (Event.dataChanged r)
      (setDevice s4 r ({ { { { info with task_percentage_ := 0 } with
          task_percentage_ := ((0 * 100 / 10 : Nat) : Int) } with
          task_percentage_ := ((5 * 100 / 10 : Nat) : Int) } with
          task_percentage_ := -1 })) := by
    have := tasksChanged_single_absent (s := s4) f4a f4p f4d
    simpa using this
  have hlt4 : r < s4.devices_.length := getElem?_some_lt f4d
  have f5d : s5.devices_[r]? = some ({ info with task_percentage_ := -1 }) := by
    rw [e5]
    simp [List.getElem?_set_self hlt4]
  have f5e : s5.events = s4.events ++ [Event.dataChanged r] := by rw [e5]; simp
  refine ⟨⟨?_, f1e⟩, ⟨?_, f2e⟩, ⟨?_, f3e⟩, ⟨?_, f4e⟩, ⟨?_, f5e⟩⟩
  · rw [f1d]; rfl
  · rw [f2d]; rfl
  · rw [f3d]; rfl
  · rw [f4d]; rfl
  · rw [f5d]; rfl

/-- C8 witness: the lifecycle on the connected one-row registry `sConn`. -/
theorem task_progress_lifecycle_witness :
    sConn.active_tasks_ = []
    ∧ sConn.devices_.findIdx? (fun i => i.device_ == some devX) = some 0
    ∧ sConn.devices_[0]? = some { infoX with device_ := some devX }
    ∧ (((DeviceTaskStarted 3 devX sConn).devices_[0]?).map (·.task_percentage_) = some 0
      ∧ ((TasksChanged [⟨3, 0, 10⟩] (DeviceTaskStarted 3 devX sConn)).devices_[0]?).map
          (·.task_percentage_) = some 0
      ∧ ((TasksChanged [⟨3, 5, 10⟩] (TasksChanged [⟨3, 0, 10⟩]
          (DeviceTaskStarted 3 devX sConn))).devices_[0]?).map
          (·.task_percentage_) = some 50
      ∧ ((TasksChanged [⟨3, 10, 10⟩] (TasksChanged [⟨3, 5, 10⟩] (TasksChanged [⟨3, 0, 10⟩]
          (DeviceTaskStarted 3 devX sConn)))).devices_[0]?).map
          (·.task_percentage_) = some 100
      ∧ ((TasksChanged [] (TasksChanged [⟨3, 10, 10⟩] (TasksChanged [⟨3, 5, 10⟩]
          (TasksChanged [⟨3, 0, 10⟩]
            (DeviceTaskStarted 3 devX sConn))))).devices_[0]?).map
          (·.task_percentage_) = some (-1)) := by
  have hmain := task_progress_lifecycle sConn devX 3 0
    ({ infoX with device_ := some devX }) (by decide) (by decide) (by decide)
  exact ⟨by decide, by decide, by decide,
    hmain.1.1, hmain.2.1.1, hmain.2.2.1.1, hmain.2.2.2.1.1, hmain.2.2.2.2.1⟩

/-!
Binding-list preservation across the registry operations (towards the
non-empty-bindings invariant).
-/

theorem backendsRefined_refl (s : DeviceManager) : backendsRefined s s :=
  fun a ha => ⟨a, ha, rfl⟩

theorem backendsRefined_trans {s t u : DeviceManager}
    (h1 : backendsRefined s t) (h2 : backendsRefined t u) : backendsRefined s u := by
  intro a ha
  obtain ⟨d, hd, he⟩ := h2 a ha
  obtain ⟨d', hd', he'⟩ := h1 d hd
  exact ⟨d', hd', he.trans he'⟩

theorem backendsRefined_of_set {s : DeviceManager} {row : Nat} {rec info : DeviceInfo}
    {s2 : DeviceManager}
    (hdev : s2.devices_ = s.devices_.set row rec)
    (hinfo : info ∈ s.devices_) (hbk : rec.backends_ = info.backends_) :
    backendsRefined s s2 := by
  intro a ha
  rw [hdev] at ha
  rcases List.mem_or_eq_of_mem_set ha with h | rfl
  · exact ⟨a, h, rfl⟩
  · exact ⟨info, hinfo, hbk⟩

theorem nonempty_of_refined {s s2 : DeviceManager}
    (hpres : backendsRefined s s2)
    (hinv : ∀ d ∈ s.devices_, d.backends_ ≠ []) :
    ∀ a ∈ s2.devices_, a.backends_ ≠ [] := by
  intro a ha
  obtain ⟨d, hd, he⟩ := hpres a ha
  rw [he]
  exact hinv d hd

theorem disconnect_refined (row : Nat) (s : DeviceManager) :
    backendsRefined s (Disconnect row s) := by
  cases hget : s.devices_[row]? with
  | none =>
    simp only [Disconnect, hget]
    exact backendsRefined_refl s
  | some info =>
    cases hdev : info.device_ with
    | none =>
      simp only [Disconnect, hget, hdev]
      exact backendsRefined_refl s
    | some d =>
      simp only [Disconnect, hget, hdev]
      intro a ha
      simp only [emitEvent_devices, setDevice_devices] at ha
      rcases List.mem_or_eq_of_mem_set ha with h | rfl
      · exact ⟨a, h, rfl⟩
      · exact ⟨info, List.getElem?_mem hget, rfl⟩

theorem connect_refined (env : Env) (row : Nat) (s : DeviceManager) :
    backendsRefined s (Connect env row s).2 := by
  cases hget : s.devices_[row]? with
  | none =>
    simp only [Connect, hget]
    exact backendsRefined_refl s
  | some info =>
    have hmem := List.getElem?_mem hget
    cases hdev : info.device_ with
    | some d =>
      simp only [Connect, hget, hdev]
      exact backendsRefined_refl s
    | none =>
      cases hbb : BestBackend env info with
      | none =>
        simp only [Connect, hget, hdev, hbb]
        exact backendsRefined_refl s
      | some bb =>
        cases hbl : bb.lister_ with
        | none =>
          simp only [Connect, hget, hdev, hbb, hbl]
          exact backendsRefined_refl s
        | some l =>
          simp only [Connect, hget, hdev, hbb, hbl]
          split
          · intro a ha
            simp only [emitEvent_devices, setDevice_devices,
              apply_ite DeviceManager.devices_, ite_self] at ha
            rcases List.mem_or_eq_of_mem_set ha with h | rfl
            · exact ⟨a, h, rfl⟩
            · exact ⟨info, hmem, by simp [apply_ite DeviceInfo.backends_]⟩
          · split
            · intro a ha
              simp only [emitEvent_devices, setDevice_devices,
                apply_ite DeviceManager.devices_, ite_self] at ha
              rcases List.mem_or_eq_of_mem_set ha with h | rfl
              · exact ⟨a, h, rfl⟩
              · exact ⟨info, hmem, by simp [apply_ite DeviceInfo.backends_]⟩
            · split
              · intro a ha
                simp only [emitEvent_devices, setDevice_devices,
                  apply_ite DeviceManager.devices_, ite_self] at ha
                rcases List.mem_or_eq_of_mem_set ha with h | rfl
                · exact ⟨a, h, rfl⟩
                · exact ⟨info, hmem, by simp [apply_ite DeviceInfo.backends_]⟩
              · intro a ha
                simp only [emitEvent_devices, setDevice_devices,
                  apply_ite DeviceManager.devices_, ite_self] at ha
                rcases List.mem_or_eq_of_mem_set ha with h | rfl
                · exact ⟨a, h, rfl⟩
                · exact ⟨info, hmem, by simp [apply_ite DeviceInfo.backends_]⟩

theorem removeRow_refined (i : Nat) (s : DeviceManager) :
    backendsRefined s (removeRow i s) := by
  intro a ha
  simp only [removeRow] at ha
  exact ⟨a, List.mem_of_mem_eraseIdx ha, rfl⟩

theorem setDeviceIdentity_refined (env : Env) (row : Nat) (name icon : String)
    (s : DeviceManager) : backendsRefined s (SetDeviceIdentity env row name icon s) := by
  cases hget : s.devices_[row]? with
  | none =>
    simp only [SetDeviceIdentity, hget]
    exact backendsRefined_refl s
  | some info =>
    simp only [SetDeviceIdentity, hget]
    intro a ha
    simp only [emitEvent_devices, setDevice_devices] at ha
    rcases List.mem_or_eq_of_mem_set ha with h | rfl
    · exact ⟨a, h, rfl⟩
    · exact ⟨info, List.getElem?_mem hget, rfl⟩

theorem unmount_refined (row : Nat) (s : DeviceManager) :
    backendsRefined s (Unmount row s) := by
  cases hget : s.devices_[row]? with
  | none =>
    simp only [Unmount, hget]
    exact backendsRefined_refl s
  | some info =>
    simp only [Unmount, hget]
    split
    · exact backendsRefined_refl s
    · split
      · exact disconnect_refined row s
      · exact backendsRefined_refl s

theorem deviceTaskStarted_refined (taskId : Nat) (dev : ConnectedDevice)
    (s : DeviceManager) : backendsRefined s (DeviceTaskStarted taskId dev s) := by
  cases hf : s.devices_.findIdx? (fun i => i.device_ == some dev) with
  | none =>
    simp only [DeviceTaskStarted, hf]
    exact backendsRefined_refl s
  | some i =>
    cases hd : s.devices_[i]? with
    | none =>
      simp only [DeviceTaskStarted, hf, hd]
      exact backendsRefined_refl s
    | some info =>
      simp only [DeviceTaskStarted, hf, hd]
      intro a ha
      simp only [emitEvent_devices, setDevice_devices] at ha
      rcases List.mem_or_eq_of_mem_set ha with hm | rfl
      · exact ⟨a, hm, rfl⟩
      · exact ⟨info, List.getElem?_mem hd, rfl⟩

theorem tasksChangedStep_refined (acc : DeviceManager × List Nat) (t : TmTask) :
    backendsRefined acc.1 (tasksChangedStep acc t).1 := by
  obtain ⟨s, fin⟩ := acc
  cases hg : mapGet t.id s.active_tasks_ with
  | none =>
    simp only [tasksChangedStep, hg]
    exact backendsRefined_refl s
  | some h =>
    cases hp : pindexRow s h with
    | none =>
      simp only [tasksChangedStep, hg, hp]
      exact backendsRefined_refl s
    | some r =>
      cases hd : s.devices_[r]? with
      | none =>
        simp only [tasksChangedStep, hg, hp, hd]
        exact backendsRefined_refl s
      | some info =>
        simp only [tasksChangedStep, hg, hp, hd]
        intro a ha
        simp only [emitEvent_devices, setDevice_devices] at ha
        rcases List.mem_or_eq_of_mem_set ha with hm | rfl
        · exact ⟨a, hm, rfl⟩
        · exact ⟨info, List.getElem?_mem hd, rfl⟩

theorem tasksChangedFold_refined (tasks : List TmTask) :
    ∀ acc : DeviceManager × List Nat,
      backendsRefined acc.1 (tasks.foldl tasksChangedStep acc).1 := by
  induction tasks with
  | nil => exact fun acc => backendsRefined_refl acc.1
  | cons t rest ih =>
    intro acc
    rw [List.foldl_cons]
    exact backendsRefined_trans (tasksChangedStep_refined acc t) (ih _)

theorem tasksChangedFinish_refined :
    ∀ (fin : List Nat) (s : DeviceManager),
      backendsRefined s (tasksChangedFinish s fin) := by
  intro fin
  induction fin with
  | nil => exact fun s => backendsRefined_refl s
  | cons h rest ih =>
    intro s
    cases hp : pindexRow s h with
    | none =>
      simp only [tasksChangedFinish, hp]
      exact ih s
    | some r =>
      cases hd : s.devices_[r]? with
      | none =>
        simp only [tasksChangedFinish, hp, hd]
        exact ih s
      | some info =>
        simp only [tasksChangedFinish, hp, hd]
        refine backendsRefined_trans ?_ (ih _)
        intro a ha
        simp only [emitEvent_devices, setDevice_devices] at ha
        rcases List.mem_or_eq_of_mem_set ha with hm | rfl
        · exact ⟨a, hm, rfl⟩
        · exact ⟨info, List.getElem?_mem hd, rfl⟩

theorem tasksChanged_refined (tasks : List TmTask) (s : DeviceManager) :
    backendsRefined s (TasksChanged tasks s) := by
  unfold TasksChanged
  dsimp only
  rcases hfold : tasks.foldl tasksChangedStep (s, s.active_tasks_.map (·.2))
    with ⟨s', fin'⟩
  rw [hfold]
  have hs' : backendsRefined s s' := by
    have := tasksChangedFold_refined tasks (s, s.active_tasks_.map (·.2))
    rw [hfold] at this
    exact this
  exact backendsRefined_trans hs' (tasksChangedFinish_refined fin' s')

theorem updateBackendLister_ne_nil {id : String} {v : Option Nat} {bs : List Backend}
    (h : bs ≠ []) : updateBackendLister id v bs ≠ [] := by
  intro hnil
  apply h
  have hlen := length_updateBackendLister id v bs
  rw [hnil] at hlen
  exact List.length_eq_zero.mp hlen.symm

theorem forget_inv {env : Env} {row : Nat} {s : DeviceManager}
    (hinv : ∀ d ∈ s.devices_, d.backends_ ≠ []) :
    ∀ d ∈ (Forget env row s).devices_, d.backends_ ≠ [] := by
  cases hget : s.devices_[row]? with
  | none =>
    simp only [Forget, hget]
    exact hinv
  | some info =>
    simp only [Forget, hget]
    have hs1 : ∀ d ∈ (if info.device_.isSome = true then Disconnect row s
        else s).devices_, d.backends_ ≠ [] := by
      split
      · exact nonempty_of_refined (disconnect_refined row s) hinv
      · exact hinv
    split
    · exact hinv
    · cases hbb : BestBackend env { info with device_ := none, database_id_ := -1 } with
      | none =>
        simp only [hbb, removeRow]
        intro d hd
        exact hs1 d (List.mem_of_mem_eraseIdx hd)
      | some bb =>
        cases hbl : bb.lister_ with
        | none =>
          simp only [hbb, hbl, removeRow]
          intro d hd
          exact hs1 d (List.mem_of_mem_eraseIdx hd)
        | some l =>
          simp only [hbb, hbl]
          intro d hd
          simp only [emitEvent_devices, setDevice_devices] at hd
          rcases List.mem_or_eq_of_mem_set hd with hm | rfl
          · exact hs1 d hm
          · simpa using hinv info (List.getElem?_mem hget)

theorem physicalDeviceAdded_inv {env : Env} {l : Nat} {id : String} {s : DeviceManager}
    (hinv : ∀ d ∈ s.devices_, d.backends_ ≠ []) :
    ∀ d ∈ (PhysicalDeviceAdded env l id s).devices_, d.backends_ ≠ [] := by
  cases hf : findDeviceByIdAux id s.devices_ with
  | some i =>
    cases hget : s.devices_[i]? with
    | none =>
      simp only [PhysicalDeviceAdded, hf, hget]
      exact hinv
    | some info =>
      simp only [PhysicalDeviceAdded, hf, hget]
      intro d hd
      simp only [emitEvent_devices, setDevice_devices] at hd
      rcases List.mem_or_eq_of_mem_set hd with hm | rfl
      · exact hinv d hm
      · exact updateBackendLister_ne_nil (hinv info (List.getElem?_mem hget))
  | none =>
    cases hurl : findDeviceByUrlAux env ((env.listers l).deviceUrls id) s.devices_ with
    | some i =>
      cases hget : s.devices_[i]? with
      | none =>
        simp only [PhysicalDeviceAdded, hf, hurl, hget]
        exact hinv
      | some info =>
        simp only [PhysicalDeviceAdded, hf, hurl, hget]
        intro d hd
        simp only [emitEvent_devices, setDevice_devices] at hd
        rcases List.mem_or_eq_of_mem_set hd with hm | rfl
        · exact hinv d hm
        · simp [apply_ite DeviceInfo.backends_]
    | none =>
      simp only [PhysicalDeviceAdded, hf, hurl]
      intro d hd
      rcases List.mem_append.mp hd with hm | hm
      · exact hinv d hm
      · obtain rfl := List.mem_singleton.mp hm
        simp

theorem physicalDeviceRemoved_inv {env : Env} {l : Nat} {id : String}
    {s : DeviceManager} (hinv : ∀ d ∈ s.devices_, d.backends_ ≠ []) :
    ∀ d ∈ (PhysicalDeviceRemoved env l id s).devices_, d.backends_ ≠ [] := by
  cases hf : findDeviceByIdAux id s.devices_ with
  | none =>
    simp only [PhysicalDeviceRemoved, hf]
    exact hinv
  | some i =>
    cases hget : s.devices_[i]? with
    | none =>
      simp only [PhysicalDeviceRemoved, hf, hget]
      exact hinv
    | some info =>
      simp only [PhysicalDeviceRemoved, hf, hget]
      split
      · cases hdev : info.device_ with
        | none =>
          simp only [hdev]
          intro d hd
          simp only [apply_ite DeviceManager.devices_, emitEvent_devices,
            setDevice_devices, ite_self] at hd
          rcases List.mem_or_eq_of_mem_set hd with hm | rfl
          · exact hinv d hm
          · exact updateBackendLister_ne_nil (hinv info (List.getElem?_mem hget))
        | some dev =>
          simp only [hdev]
          intro d hd
          simp only [apply_ite DeviceManager.devices_, apply_ite DeviceInfo.device_,
            emitEvent_devices, setDevice_devices, ite_self] at hd
          rcases List.mem_or_eq_of_mem_set hd with hm | hm
          · exact hinv d hm
          · have : d.backends_ = updateBackendLister id none info.backends_ := by
              rw [hm]
              simp [apply_ite DeviceInfo.backends_]
            rw [this]
            exact updateBackendLister_ne_nil (hinv info (List.getElem?_mem hget))
      · split
        · simp only [removeRow]
          intro d hd
          exact hinv d (List.mem_of_mem_eraseIdx hd)
        · next hne =>
          intro d hd
          simp only [setDevice_devices] at hd
          rcases List.mem_or_eq_of_mem_set hd with hm | rfl
          · exact hinv d hm
          · simpa using hne

/-- C9: in every reachable registry state each listed record has a non-empty
binding list, hence the primary-binding query `BestBackend` never comes back
null for a listed record — when no binding is live it falls back to the
record's first binding — which is what every per-row read of `data` relies
on. -/
theorem devices_backends_nonempty_invariant (env : Env) (s : DeviceManager)
    (h : Reachable env s) :
    ∀ info ∈ s.devices_, info.backends_ ≠ []
      ∧ (BestBackend env info).isSome = true
      ∧ (bestBackendAux env info.backends_ (-1) none = none →
          BestBackend env info = info.backends_.head?) := by
  have core : ∀ info ∈ s.devices_, info.backends_ ≠ [] := by
    induction h with
    | init dbDevices nextId =>
      intro info hinfo
      simp only [initManager] at hinfo
      obtain ⟨dev, -, rfl⟩ := List.mem_map.mp hinfo
      simp only [InitFromDb]
      intro hnil
      exact splitOn_ne_nil dev.unique_id_ "," (List.map_eq_nil_iff.mp hnil)
    | step s0 op h0 ih =>
      cases op with
      | physicalDeviceAdded l id => exact physicalDeviceAdded_inv ih
      | physicalDeviceRemoved l id => exact @physicalDeviceRemoved_inv env l id s0 ih
      | physicalDeviceChanged l id => exact ih
      | connectOp row => exact nonempty_of_refined (connect_refined env row s0) ih
      | disconnectOp row => exact nonempty_of_refined (disconnect_refined row s0) ih
      | forgetOp row => exact forget_inv ih
      | setIdentity row name icon =>
        exact nonempty_of_refined (setDeviceIdentity_refined env row name icon s0) ih
      | unmountOp row => exact nonempty_of_refined (unmount_refined row s0) ih
      | taskStarted taskId dev =>
        exact nonempty_of_refined (deviceTaskStarted_refined taskId dev s0) ih
      | tasksChangedOp tasks =>
        exact nonempty_of_refined (tasksChanged_refined tasks s0) ih
      | newPersistentIndex row => exact ih
  intro info hinfo
  refine ⟨core info hinfo, BestBackend_isSome (core info hinfo), ?_⟩
  intro haux
  unfold BestBackend
  rw [haux]

/-- C9 witness: the invariant instantiated at a reachable two-step state (a
fresh registry that saw one "device x added" event) and its single record. -/
theorem devices_backends_nonempty_invariant_witness :
    addedX ∈ (applyOp envAB (Op.physicalDeviceAdded 0 "x")
      (initManager envAB [] 7)).devices_
    ∧ (addedX.backends_ ≠ []
      ∧ (BestBackend envAB addedX).isSome = true
      ∧ (bestBackendAux envAB addedX.backends_ (-1) none = none →
          BestBackend envAB addedX = addedX.backends_.head?)) :=
  ⟨by decide,
   devices_backends_nonempty_invariant envAB
     (applyOp envAB (Op.physicalDeviceAdded 0 "x") (initManager envAB [] 7))
     (Reachable.step (initManager envAB [] 7) (Op.physicalDeviceAdded 0 "x")
       (Reachable.init [] 7))
     addedX (by decide)⟩
